import Mathlib

/-!
# Verification of the hiking-directory geospatial core

A shallow embedding, in Lean 4, of the geospatial core of the
hiking-directory repository:

* the postcode normalisers (`scripts/preprocess-postcodes.ts` and the
  API route),
* the postcode geocoder (`loadPostcodeRecord`),
* the haversine great-circle distance (`lib/hikes.ts` and the API route,
  textually identical),
* the two proximity searches (`getNearbyHikes` in `lib/hikes.ts`, and the
  `GET` handler of the search API route),
* the CSV preprocessing pipeline (`scripts/preprocess-postcodes.ts`),
* the enrichment save step of the batch enrichment scripts.

Modelling conventions:

* JavaScript numbers are modelled as real numbers (`ℝ`).  Floating-point
  rounding is outside the model; decimal literals are read at face value.
  `NaN` results of `Number(...)` are modelled by `Option ℝ` (`none` = NaN);
  the behaviour of `Number` on strings is abstracted as a function
  parameter `jsNumber : String → Option ℝ` wherever the source calls it.
* The file system is modelled as a pure store: a lookup function (or list,
  for directory scans) yielding, per file, `absent`, `corrupt` (unreadable
  or unparseable JSON) or a parsed value.  Fields that a JSON file may
  omit even though the TypeScript type declares them (the `start`
  coordinates, which the source explicitly guards with `typeof` checks)
  are modelled as `Option` fields.
* JavaScript's stable `Array.prototype.sort` with the numeric comparator
  `(a, b) => a.d - b.d` is modelled by `List.mergeSort` with the boolean
  relation `a.d ≤ b.d`: both are the unique stable sort for that key.
* Strings are handled through their character lists; `toUpperCase` is
  modelled per-character (ASCII-adequate), and the `\s` character class of
  the regexes used by the source is modelled by `isJsWs`.
-/

/-! ## JavaScript string helpers -/

/-- Model of the JavaScript `\s` regex class / `trim` whitespace set
(ASCII whitespace plus NBSP and BOM; the further Unicode space separators
behave identically and are omitted). -/
def isJsWs (c : Char) : Bool :=
  c = ' ' || c = '\t' || c = '\n' || c = '\r' || c = '\x0b' || c = '\x0c' ||
  c = ' ' || c = '﻿'

/-- Model of `String.prototype.trim`: strip leading and trailing whitespace. -/
def jsTrim (s : String) : String :=
  ⟨(((s.data.dropWhile isJsWs).reverse.dropWhile isJsWs).reverse)⟩

/-- Model of `String.prototype.toUpperCase`, modelled per character (ASCII). -/
def jsToUpper (s : String) : String :=
  ⟨s.data.map Char.toUpper⟩

/-- Model of `.replace(/\s+/g, '')`: delete every whitespace character. -/
def jsStripWs (s : String) : String :=
  ⟨s.data.filter (fun c => !isJsWs c)⟩

/-- Core of `.replace(/\s+/g, ' ')` on a character list: every maximal
run of whitespace becomes a single space. -/
def collapseWsList : List Char → List Char
  | [] => []
  | [c] => if isJsWs c then [' '] else [c]
  | c :: d :: rest =>
    if isJsWs c && isJsWs d then collapseWsList (d :: rest)
    else (if isJsWs c then ' ' else c) :: collapseWsList (d :: rest)

/-- Model of `.replace(/\s+/g, ' ')`: collapse whitespace runs to single spaces. -/
def jsCollapseWs (s : String) : String :=
  ⟨collapseWsList s.data⟩

/-- Core of `.replace(/\s+/, '-')` (no `g` flag): only the first maximal
whitespace run is replaced by a hyphen. -/
def replaceFirstWsRunList : List Char → List Char
  | [] => []
  | c :: rest =>
    if isJsWs c then '-' :: rest.dropWhile isJsWs
    else c :: replaceFirstWsRunList rest

/-- Model of `.replace(/\s+/, '-')` on strings. -/
def replaceFirstWsRun (s : String) : String :=
  ⟨replaceFirstWsRunList s.data⟩

/-! ## The two postcode normalisers -/

namespace Pre

/-- Model of `normalisePostcode` from `scripts/preprocess-postcodes.ts`:
`raw.trim().toUpperCase().replace(/\s+/g, '')`; empty → `""`;
length ≤ 3 → unsplit; otherwise `outward ++ " " ++ inward` where the
inward code is the last 3 characters. -/
def normalisePostcode (raw : String) : String :=
  let trimmed := jsStripWs (jsToUpper (jsTrim raw))
  if trimmed = "" then ""
  else if trimmed.data.length ≤ 3 then trimmed
  else
    let outward : List Char := trimmed.data.take (trimmed.data.length - 3)
    let inward : List Char := trimmed.data.drop (trimmed.data.length - 3)
    ⟨outward ++ (' ' :: inward)⟩

end Pre

namespace Api

/-- Model of `normalisePostcode` from the search API route: trim, uppercase,
collapse internal whitespace to single spaces; if the result still
contains a space it is returned unchanged; otherwise, if longer than 3
characters, a space is inserted before the last 3 characters. -/
def normalisePostcode (raw : String) : String :=
  let trimmed := jsToUpper (jsTrim raw)
  let singleSpaced := jsCollapseWs trimmed
  if singleSpaced.data.contains ' ' then singleSpaced
  else if 3 < singleSpaced.data.length then
    let prefixPart : List Char := singleSpaced.data.take (singleSpaced.data.length - 3)
    let suffixPart : List Char := singleSpaced.data.drop (singleSpaced.data.length - 3)
    ⟨prefixPart ++ (' ' :: suffixPart)⟩
  else singleSpaced

/-- Model of `postcodeToFilename` from the API route:
`postcode.replace(/\s+/, '-') + '.json'`. -/
def postcodeToFilename (postcode : String) : String :=
  replaceFirstWsRun postcode ++ ".json"

end Api

/-- Modelled from the spec: §4.1's normaliser algorithm stated in the
spec's own words — strip all whitespace, uppercase, return the empty
string for empty input, return strings of 3 or fewer characters unsplit,
and otherwise re-insert exactly one space so that the last 3 characters
form the inward code.  Used as the reference point for claim C2. -/
def normalisePostcodeSpec (raw : String) : String :=
  let stripped := jsToUpper (jsStripWs raw)
  if stripped = "" then ""
  else if stripped.data.length ≤ 3 then stripped
  else
    let outward : List Char := stripped.data.take (stripped.data.length - 3)
    let inward : List Char := stripped.data.drop (stripped.data.length - 3)
    ⟨outward ++ (' ' :: inward)⟩

/-! ## File store model -/

/-- A file slot in the modelled file system: missing, unreadable or
unparseable (both throw in the source and are caught), or parsed JSON. -/
inductive JFile (α : Type) : Type
  | absent : JFile α
  | corrupt : JFile α
  | parsed (a : α) : JFile α
deriving DecidableEq

/-! ## Postcode records and the geocoder (API route) -/

namespace Api

/-- Model of `PostcodeRecord` from the search API route.  `in_use` is optional in
the source type (`in_use?: boolean`); the route tests `=== false`. -/
structure PostcodeRecord where
  postcode : String
  area : String
  district : String
  sector : String
  latitude : ℝ
  longitude : ℝ
  easting : Option ℝ := none
  northing : Option ℝ := none
  district_code : Option String := none
  ward_code : Option String := none
  in_use : Option Bool := none

/-- Model of `loadPostcodeRecord` from the API route: build the on-disk name via
`postcodeToFilename`, read and parse the file (any I/O or parse error is
caught and becomes `null`), and return `null` when `in_use === false`. -/
def loadPostcodeRecord (store : String → JFile PostcodeRecord)
    (postcode : String) : Option PostcodeRecord :=
  match store (postcodeToFilename postcode) with
  | .absent => none
  | .corrupt => none
  | .parsed json => if json.in_use = some false then none else some json

end Api

/-! ## Great-circle distance -/

/-- Model of `toRad` (identical in `lib/hikes.ts` and the API route):
`(deg * Math.PI) / 180`. -/
noncomputable def toRad (deg : ℝ) : ℝ := deg * Real.pi / 180

/-- Model of `Math.atan2 y x`, written out by quadrant.  (The signed-zero
distinctions of IEEE `atan2` do not exist in `ℝ`; both callers below pass
non-negative arguments, where the two agree.) -/
noncomputable def atan2 (y x : ℝ) : ℝ :=
  if 0 < x then Real.arctan (y / x)
  else if x < 0 then
    (if 0 ≤ y then Real.arctan (y / x) + Real.pi
     else Real.arctan (y / x) - Real.pi)
  else
    (if 0 < y then Real.pi / 2 else if y < 0 then -(Real.pi / 2) else 0)

/-- Model of `haversineKm` from `lib/hikes.ts` (the API route's
`haversineDistanceKm` is the textually identical formula):
`R = 6371`, `a = sin²(dLat/2) + cos lat1 · cos lat2 · sin²(dLon/2)`,
`c = 2 · atan2(√a, √(1−a))`, result `R · c`. -/
noncomputable def haversineKm (lat1 lon1 lat2 lon2 : ℝ) : ℝ :=
  let R : ℝ := 6371
  let dLat := toRad (lat2 - lat1)
  let dLon := toRad (lon2 - lon1)
  let a := Real.sin (dLat / 2) * Real.sin (dLat / 2) +
    Real.cos (toRad lat1) * Real.cos (toRad lat2) *
      Real.sin (dLon / 2) * Real.sin (dLon / 2)
  let c := 2 * atan2 (Real.sqrt a) (Real.sqrt (1 - a))
  R * c

/-- Model of `haversineDistanceKm` from the API route; the body is the same
formula as `lib/hikes.ts`'s `haversineKm`, with `toRad` inlined. -/
noncomputable def haversineDistanceKm (lat1 lon1 lat2 lon2 : ℝ) : ℝ :=
  haversineKm lat1 lon1 lat2 lon2

/-- Model of `Number(x.toFixed(2))`: round to 2 decimal places.  `toFixed` rounds
half away from zero; `round` rounds half up — they agree except at exact
negative half-cents, which cannot arise from the (non-negative) distances
this model rounds. -/
noncomputable def round2 (x : ℝ) : ℝ := (round (x * 100) : ℝ) / 100

/-! ## Hike records -/

namespace Lib

/-- The `start` object of a hike record in `lib/hikes.ts`.  The
coordinates are `Option`: the JSON files are parsed unvalidated and the
source guards every use with `typeof ... === 'number'`. -/
structure HikeStart where
  lat : Option ℝ := none
  lon : Option ℝ := none
  nearest_postcode : Option String := none
  car_park_name : Option String := none

/-- Model of `Hike` from `lib/hikes.ts` (fields not consulted by the proximity
search are carried as optional payload, as in the source type). -/
structure Hike where
  slug : String
  name : String := ""
  region : Option String := none
  county : Option String := none
  difficulty : Option String := none
  distance_km : Option ℝ := none
  ascent_m : Option ℝ := none
  time_hours : Option ℝ := none
  terrain : Option String := none
  terrain_summary : Option String := none
  safety_notes : List String := []
  summary : Option String := none
  start : Option HikeStart := none
  gpx_file : Option String := none

/-- The hikes directory: one slot per file stem (the part of the file
name before `.json`; only `.json` files are modelled, the source skips
the rest). -/
def HikeDir : Type := List (String × JFile Hike)

/-- Model of `getHikeBySlug`: read `DATA_DIR/slug.json`; any error (absent file,
parse failure) is caught and becomes `null`. -/
def getHikeBySlug (dir : HikeDir) (slug : String) : Option Hike :=
  match (dir.lookup slug).getD .absent with
  | .absent => none
  | .corrupt => none
  | .parsed h => some h

/-- Model of `getAllHikes`: list the directory and re-load every `.json` file stem
through `getHikeBySlug`, keeping the successfully parsed records in
directory order. -/
def getAllHikes (dir : HikeDir) : List Hike :=
  dir.filterMap (fun e => getHikeBySlug dir e.1)

end Lib

namespace Lib

/-- The boolean key comparison used to model the stable JS sort
`(a, b) => a.distance_from_start_km - b.distance_from_start_km`. -/
noncomputable def distLE (a b : Hike × ℝ) : Bool := decide (a.2 ≤ b.2)

/-- Model of `getNearbyHikes` from `lib/hikes.ts`.

The source chain is `all.filter(slug ≠) .filter(typeof start.lat/lon =
number) .map(annotate haversineKm) .filter(d ≤ maxDistanceKm)
.sort(by d) .slice(0, limit)`.

Two mis-shaped-data paths of the source are modelled explicitly:

* the reference hike's own `start` object missing entirely: the `map`
  callback evaluates `center.start.lat`, a `TypeError`, provided the
  filtered candidate list is non-empty (`map` over `[]` never runs the
  callback) — modelled as `.error`;
* the reference hike's `start` present but `lat`/`lon` missing: the
  distances all evaluate to `NaN` in JS, every `NaN ≤ maxDistanceKm`
  comparison is false, and the result is `[]`.

The candidate coordinates read in the `map` are guarded by the
preceding `typeof` filter, hence the `getD` defaults are never the
value actually used. -/
noncomputable def getNearbyHikes (dir : HikeDir) (slug : String)
    (maxDistanceKm : ℝ := 30) (limit : ℕ := 4) :
    Except String (List (Hike × ℝ)) :=
  match getHikeBySlug dir slug with
  | none => .ok []
  | some center =>
    let all := getAllHikes dir
    let notSelf := all.filter (fun h => h.slug ≠ slug)
    let withCoords := notSelf.filter
      (fun h => (h.start.bind (·.lat)).isSome && (h.start.bind (·.lon)).isSome)
    match center.start with
    | none =>
      if withCoords.isEmpty then .ok []
      else .error "TypeError: cannot read properties of undefined"
    | some cst =>
      match cst.lat, cst.lon with
      | some clat, some clon =>
        let withDistance := withCoords.map (fun h =>
          (h, haversineKm clat clon
            ((h.start.bind (·.lat)).getD 0) ((h.start.bind (·.lon)).getD 0)))
        let inRadius := withDistance.filter (fun p => decide (p.2 ≤ maxDistanceKm))
        .ok ((inRadius.mergeSort distLE).take limit)
      | _, _ => .ok []

end Lib

/-! ## The search API route (`GET`) -/

namespace Api

/-- The `start` object of the route's `Hike` type; coordinates optional
for the same reason as in `Lib.HikeStart`. -/
structure HikeStart where
  lat : Option ℝ := none
  lon : Option ℝ := none
  nearest_postcode : Option String := none

/-- Model of `Hike` from the search API route. -/
structure Hike where
  id : String := ""
  slug : String
  name : String := ""
  region : String := ""
  distance_km : Option ℝ := none
  difficulty : String := ""
  start : Option HikeStart := none
  summary : Option String := none
  terrain : Option String := none
  estimated_time_hours : Option ℝ := none
  ascent_meters : Option ℝ := none
  gpx_path : Option String := none

/-- Model of `loadAllHikes` from the API route: an unreadable directory yields
`[]`; each `.json` file is read and parsed (errors per file are caught
and the file skipped), and a parsed hike is kept only when
`typeof hike.start?.lat === 'number' && typeof hike.start?.lon ===
'number'`.  The input list is the directory's `.json` files in `readdir`
order. -/
def loadAllHikes (files : List (JFile Hike)) : List Hike :=
  files.filterMap (fun f =>
    match f with
    | .absent => none
    | .corrupt => none
    | .parsed hike =>
      if (hike.start.bind (·.lat)).isSome ∧ (hike.start.bind (·.lon)).isSome
      then some hike else none)

/-- Sort key model for the route's stable
`.sort((a, b) => a.distanceFromPostcodeKm - b.distanceFromPostcodeKm)`. -/
noncomputable def distLE (a b : Hike × ℝ) : Bool := decide (a.2 ≤ b.2)

/-- The JSON payload of a 200 response of the route. -/
structure OkPayload where
  postcode : String
  normalisedPostcode : String
  maxDistanceKm : ℝ
  limit : ℝ
  resultCount : ℕ
  results : List (Hike × ℝ)

/-- The observable outcomes of the route, with their HTTP status. -/
inductive Response
  | badRequest (error : String)
  | notFound (error : String)
  | serverError (error : String)
  | ok (payload : OkPayload)

/-- The HTTP status attached to each outcome by the source. -/
def Response.status : Response → ℕ
  | .badRequest _ => 400
  | .notFound _ => 404
  | .serverError _ => 500
  | .ok _ => 200

/-- The `GET` handler of the search API route.

* `jsNumber` abstracts JavaScript's `Number(string)`; `none` models
  `NaN` (`Infinity` is outside the model).
* `rawPostcode`/`rawDistance`/`rawLimit` are `searchParams.get(...)`
  results (`none` = parameter absent); an empty `postcode` parameter is
  falsy in JS and also rejected.
* `.slice(0, limit)` truncates `limit` toward zero; for the positive
  `limit` reaching that line this is `⌊limit⌋`. -/
noncomputable def GET (jsNumber : String → Option ℝ)
    (pcStore : String → JFile PostcodeRecord) (hikeFiles : List (JFile Hike))
    (rawPostcode rawDistance rawLimit : Option String) : Response :=
  if rawPostcode.getD "" = "" then
    .badRequest "Missing required query parameter: postcode"
  else
    let postcode := normalisePostcode (rawPostcode.getD "")
    match jsNumber (rawDistance.getD "50") with
    | none => .badRequest "distance must be a positive number (km)"
    | some maxDistanceKm =>
      if maxDistanceKm ≤ 0 then
        .badRequest "distance must be a positive number (km)"
      else
        match jsNumber (rawLimit.getD "20") with
        | none => .badRequest "limit must be a positive number"
        | some limit =>
          if limit ≤ 0 then .badRequest "limit must be a positive number"
          else
            match loadPostcodeRecord pcStore postcode with
            | none => .notFound ("Postcode not found or not in use: " ++ postcode)
            | some pcRecord =>
              let hikes := loadAllHikes hikeFiles
              if hikes.isEmpty then .serverError "No hikes data available yet"
              else
                let annotated := hikes.map (fun hike =>
                  (hike, round2 (haversineDistanceKm
                    pcRecord.latitude pcRecord.longitude
                    ((hike.start.bind (·.lat)).getD 0)
                    ((hike.start.bind (·.lon)).getD 0))))
                let results :=
                  ((annotated.filter (fun p => decide (p.2 ≤ maxDistanceKm))).mergeSort
                    distLE).take (Int.toNat ⌊limit⌋)
                .ok { postcode := pcRecord.postcode
                      normalisedPostcode := postcode
                      maxDistanceKm := maxDistanceKm
                      limit := limit
                      resultCount := results.length
                      results := results }

end Api

/-! ## The preprocessing pipeline (`scripts/preprocess-postcodes.ts`)

The pipeline is parametric in the number type `R` (the parsed
latitude/longitude payload) and in `jsNumber : String → Option R`, the
model of JavaScript's `Number(string)` on non-empty trimmed strings
(`none` = `NaN`).  The pipeline itself never computes with the parsed
numbers — it only stores them — so the model is exact for any `R`. -/

namespace Pre

/-- Model of `PostcodeRecord` from `scripts/preprocess-postcodes.ts`. -/
structure PostcodeRecord (R : Type) where
  postcode : String
  area : String
  district : String
  sector : String
  latitude : R
  longitude : R
  easting : Option R := none
  northing : Option R := none
  gridref : Option String := none
  district_code : Option String := none
  ward_code : Option String := none
  lsoa_code : Option String := none
  msoa_code : Option String := none
  itl_level_2 : Option String := none
  itl_level_3 : Option String := none
  country : Option String := none
  in_use : Bool
deriving DecidableEq

/-- Model of `DistrictIndexItem` from the script. -/
structure DistrictIndexItem (R : Type) where
  postcode : String
  latitude : R
  longitude : R
deriving DecidableEq

/-- Split a character list at every occurrence of `sep` (the behaviour
of `String.prototype.split` with a single-character separator: `n`
separators yield `n+1` fields, empty fields included). -/
def splitOnCharList (sep : Char) : List Char → List (List Char)
  | [] => [[]]
  | c :: rest =>
    if c = sep then [] :: splitOnCharList sep rest
    else
      match splitOnCharList sep rest with
      | [] => [[c]]
      | w :: ws => (c :: w) :: ws

/-- Model of `splitCsvLine`: split on commas, trimming each field (the script's
simple splitter; quoted commas are documented as unsupported). -/
def splitCsvLine (line : String) : List String :=
  (splitOnCharList ',' line.data).map (fun w => jsTrim ⟨w⟩)

/-- Lowercasing used by the header map (`h.toLowerCase()`). -/
def jsToLower (s : String) : String :=
  ⟨s.data.map Char.toLower⟩

/-- Model of `buildHeaderMap`: lowercased header name → column index; a repeated
header name keeps the last occurrence, as JS object assignment does. -/
def buildHeaderMap (headers : List String) : List (String × ℕ) :=
  (headers.enum.map (fun p => (jsToLower p.2, p.1))).reverse

/-- Model of `getField`: look the lowercased name up in the header map; a missing
column or an index past the row's end gives `undefined` (`none`). -/
def getField (row : List String) (headerMap : List (String × ℕ))
    (name : String) : Option String :=
  match headerMap.lookup (jsToLower name) with
  | none => none
  | some idx => row.get? idx

/-- Model of `parseNumber`: `undefined`/empty/whitespace-only → `null`; otherwise
`Number(trimmed)`, with `NaN` → `null`. -/
def parseNumber {R : Type} (jsNumber : String → Option R)
    (value : Option String) : Option R :=
  match value with
  | none => none
  | some v =>
    let trimmed := jsTrim v
    if trimmed = "" then none else jsNumber trimmed

/-- Model of `truthyFlag`: missing/empty defaults to `true`; else the trimmed,
lowercased value must be one of `y/yes/1/true/t`. -/
def truthyFlag (value : Option String) : Bool :=
  match value with
  | none => true
  | some v =>
    if v = "" then true
    else
      let w := jsToLower (jsTrim v)
      w = "y" || w = "yes" || w = "1" || w = "true" || w = "t"

/-- Model of `deriveAreaDistrictSector`: split the canonical code at the space;
area = leading letters of the outward part, district = outward part,
sector = outward part + first inward character. -/
def deriveAreaDistrictSector (pc : String) : String × String × String :=
  let parts := (splitOnCharList ' ' pc.data).map (fun w => (⟨w⟩ : String))
  let outward := parts.headD ""
  let inward := (parts.drop 1).headD ""
  let areaChars := outward.data.takeWhile (fun c => 'A' ≤ c && c ≤ 'Z')
  let area := if areaChars.isEmpty then outward else ⟨areaChars⟩
  let district := outward
  let sector := if inward.data.length > 0
    then outward ++ " " ++ ⟨[inward.data.headD ' ']⟩ else outward
  (area, district, sector)

/-- The running state of the main loop: the four counters and the files
written so far (per-code records keyed by file stem, and the in-memory
district index entries). -/
structure PreState (R : Type) where
  totalRows : ℕ := 0
  writtenByCode : ℕ := 0
  skippedNoCoords : ℕ := 0
  skippedNoPostcode : ℕ := 0
  records : List (String × PostcodeRecord R) := []
  districtItems : List (String × DistrictIndexItem R) := []
deriving DecidableEq

/-- One data row of the loop body (a non-blank, non-header line). -/
def processRow {R : Type} (jsNumber : String → Option R)
    (headerMap : List (String × ℕ)) (line : String) (st : PreState R) :
    PreState R :=
  let cols := splitCsvLine line
  let st := { st with totalRows := st.totalRows + 1 }
  match getField cols headerMap "Postcode" with
  | none => { st with skippedNoPostcode := st.skippedNoPostcode + 1 }
  | some rawPc =>
    if rawPc = "" then { st with skippedNoPostcode := st.skippedNoPostcode + 1 }
    else
      let postcode := normalisePostcode rawPc
      if postcode = "" then
        { st with skippedNoPostcode := st.skippedNoPostcode + 1 }
      else
        let lat? := parseNumber jsNumber (getField cols headerMap "Latitude")
        let lon? := parseNumber jsNumber (getField cols headerMap "Longitude")
        match lat?, lon? with
        | some lat, some lon =>
          let inUse := truthyFlag (getField cols headerMap "In Use?")
          let ads := deriveAreaDistrictSector postcode
          let record : PostcodeRecord R :=
            { postcode := postcode
              area := ads.1
              district := ads.2.1
              sector := ads.2.2
              latitude := lat
              longitude := lon
              easting := parseNumber jsNumber (getField cols headerMap "Easting")
              northing := parseNumber jsNumber (getField cols headerMap "Northing")
              gridref := getField cols headerMap "Grid Reference"
              district_code := getField cols headerMap "District Code"
              ward_code := getField cols headerMap "Ward Code"
              lsoa_code := getField cols headerMap "LSOA Code"
              msoa_code := getField cols headerMap "MSOA Code"
              itl_level_2 := getField cols headerMap "ITL level 2"
              itl_level_3 := getField cols headerMap "ITL level 3"
              country := getField cols headerMap "Country"
              in_use := inUse }
          { st with
              writtenByCode := st.writtenByCode + 1
              records := st.records ++ [(replaceFirstWsRun postcode, record)]
              districtItems := st.districtItems ++
                [(ads.2.1, { postcode := postcode, latitude := lat, longitude := lon })] }
        | _, _ => { st with skippedNoCoords := st.skippedNoCoords + 1 }

/-- The loop over the data lines (blank lines are skipped uncounted). -/
def processLines {R : Type} (jsNumber : String → Option R)
    (headerMap : List (String × ℕ)) : List String → PreState R → PreState R
  | [], st => st
  | line :: rest, st =>
    if jsTrim line = "" then processLines jsNumber headerMap rest st
    else processLines jsNumber headerMap rest (processRow jsNumber headerMap line st)

/-- Model of `preprocess`, minus its file I/O: the first line (literally line 1 —
a blank first line means the header slot is missed) provides the header
map; if a data line arrives with no header map the script aborts
(`process.exit(1)`, modelled as `none`).  A run to completion yields the
final state. -/
def preprocess {R : Type} (jsNumber : String → Option R)
    (lines : List String) : Option (PreState R) :=
  match lines with
  | [] => some {}
  | first :: rest =>
    if jsTrim first = "" then
      if rest.all (fun l => jsTrim l = "") then some {} else none
    else
      some (processLines jsNumber (buildHeaderMap (splitCsvLine first)) rest {})

end Pre

/-! ## The enrichment save step (`scripts/enrich-hikes.ts` variants) -/

namespace Enrich

/-- The `seo` part of the AI payload (`scripts/hike-types.ts`). -/
structure Seo where
  title : String
  meta_description : String
  h1 : String
deriving DecidableEq

/-- The `ai` enrichment payload (`scripts/hike-types.ts`). -/
structure AiPayload where
  summary : String
  terrain_summary : String
  safety_notes : String
  recommended_gear : List String
  best_seasons : String
  seo : Seo
deriving DecidableEq

/-- Model of `Hike` from `scripts/hike-types.ts` (the record the enrichment batch
reads and writes). -/
structure Hike where
  id : String
  slug : String
  name : String
  region : String
  country : String
  distanceKm : ℝ
  ascentM : Option ℝ := none
  difficulty : String
  themes : List String
  transport_access_tags : List String
  start_lat : ℝ
  start_lon : ℝ
  source_type : String
  source_osmId : ℤ
  ai : Option AiPayload := none

/-- The record written by the enrichment main loop:
`saveHike(dir, { ...hike, ai })` — the loaded record spread unchanged,
with the fresh `ai` payload attached (overriding any previous `ai`). -/
def enrichedRecord (hike : Hike) (ai : AiPayload) : Hike :=
  { hike with ai := some ai }

end Enrich

/-! ## Helper lemmas: the distance function -/

theorem atan2_nonneg {y x : ℝ} (hy : 0 ≤ y) (hx : 0 ≤ x) : 0 ≤ atan2 y x := by
  unfold atan2
  rcases lt_or_eq_of_le hx with hx' | hx'
  · rw [if_pos hx']
    have := Real.arctan_strictMono.monotone (div_nonneg hy (le_of_lt hx'))
    rwa [Real.arctan_zero] at this
  · rw [← hx', if_neg (lt_irrefl 0), if_neg (lt_irrefl 0)]
    rcases lt_or_eq_of_le hy with hy' | hy'
    · rw [if_pos hy']
      linarith [Real.pi_pos]
    · rw [if_neg (by rw [← hy']; exact lt_irrefl 0),
        if_neg (by rw [← hy']; exact lt_irrefl 0)]

theorem atan2_zero_pos {x : ℝ} (hx : 0 < x) : atan2 0 x = 0 := by
  unfold atan2
  rw [if_pos hx, zero_div, Real.arctan_zero]

theorem atan2_eq_arctan {y x : ℝ} (hx : 0 < x) : atan2 y x = Real.arctan (y / x) := by
  unfold atan2
  rw [if_pos hx]

theorem atan2_pos_zero {y : ℝ} (hy : 0 < y) : atan2 y 0 = Real.pi / 2 := by
  unfold atan2
  rw [if_neg (lt_irrefl 0), if_neg (lt_irrefl 0), if_pos hy]

/-- The `a` term of the haversine formula, named so that concrete runs of
the distance function can be computed by computing `a`. -/
noncomputable def haversineA (lat1 lon1 lat2 lon2 : ℝ) : ℝ :=
  Real.sin (toRad (lat2 - lat1) / 2) * Real.sin (toRad (lat2 - lat1) / 2) +
    Real.cos (toRad lat1) * Real.cos (toRad lat2) *
      Real.sin (toRad (lon2 - lon1) / 2) * Real.sin (toRad (lon2 - lon1) / 2)

theorem haversineKm_eq (lat1 lon1 lat2 lon2 : ℝ) :
    haversineKm lat1 lon1 lat2 lon2 =
      6371 * (2 * atan2 (Real.sqrt (haversineA lat1 lon1 lat2 lon2))
        (Real.sqrt (1 - haversineA lat1 lon1 lat2 lon2))) := rfl

theorem haversineKm_nonneg (lat1 lon1 lat2 lon2 : ℝ) :
    0 ≤ haversineKm lat1 lon1 lat2 lon2 := by
  rw [haversineKm_eq]
  have h := atan2_nonneg (Real.sqrt_nonneg (haversineA lat1 lon1 lat2 lon2))
    (Real.sqrt_nonneg (1 - haversineA lat1 lon1 lat2 lon2))
  linarith

theorem haversineA_self (lat lon : ℝ) : haversineA lat lon lat lon = 0 := by
  unfold haversineA toRad
  simp [sub_self]

theorem haversineKm_self (lat lon : ℝ) : haversineKm lat lon lat lon = 0 := by
  rw [haversineKm_eq, haversineA_self]
  rw [Real.sqrt_zero, sub_zero, Real.sqrt_one, atan2_zero_pos one_pos]
  ring

theorem haversineA_symm (lat1 lon1 lat2 lon2 : ℝ) :
    haversineA lat1 lon1 lat2 lon2 = haversineA lat2 lon2 lat1 lon1 := by
  unfold haversineA toRad
  have e1 : (lat1 - lat2) * Real.pi / 180 / 2 = -((lat2 - lat1) * Real.pi / 180 / 2) := by
    ring
  have e2 : (lon1 - lon2) * Real.pi / 180 / 2 = -((lon2 - lon1) * Real.pi / 180 / 2) := by
    ring
  rw [e1, e2, Real.sin_neg, Real.sin_neg]
  ring

theorem haversineKm_symm (lat1 lon1 lat2 lon2 : ℝ) :
    haversineKm lat1 lon1 lat2 lon2 = haversineKm lat2 lon2 lat1 lon1 := by
  rw [haversineKm_eq, haversineKm_eq, haversineA_symm]

theorem haversineA_0_0_90_0 : haversineA 0 0 90 0 = 1 / 2 := by
  unfold haversineA toRad
  have e1 : ((90:ℝ) - 0) * Real.pi / 180 / 2 = Real.pi / 4 := by ring
  have e2 : ((0:ℝ) - 0) * Real.pi / 180 / 2 = 0 := by ring
  have e3 : (90:ℝ) * Real.pi / 180 = Real.pi / 2 := by ring
  have e4 : (0:ℝ) * Real.pi / 180 = 0 := by ring
  rw [e1, e2, e3, e4, Real.sin_pi_div_four, Real.cos_pi_div_two, Real.sin_zero]
  have h2 : Real.sqrt 2 * Real.sqrt 2 = 2 := Real.mul_self_sqrt (by norm_num)
  nlinarith [h2]

theorem haversineKm_0_0_90_0 : haversineKm 0 0 90 0 = 6371 * Real.pi / 2 := by
  rw [haversineKm_eq, haversineA_0_0_90_0]
  have h : (1:ℝ) - 1 / 2 = 1 / 2 := by norm_num
  rw [h]
  have hpos : 0 < Real.sqrt (1 / 2) := Real.sqrt_pos.mpr (by norm_num)
  rw [atan2_eq_arctan hpos, div_self (ne_of_gt hpos), Real.arctan_one]
  ring

theorem haversineA_0_0_180_0 : haversineA 0 0 180 0 = 1 := by
  unfold haversineA toRad
  have e1 : ((180:ℝ) - 0) * Real.pi / 180 / 2 = Real.pi / 2 := by ring
  have e2 : ((0:ℝ) - 0) * Real.pi / 180 / 2 = 0 := by ring
  have e3 : (180:ℝ) * Real.pi / 180 = Real.pi := by ring
  have e4 : (0:ℝ) * Real.pi / 180 = 0 := by ring
  rw [e1, e2, e3, e4, Real.sin_pi_div_two, Real.sin_zero]
  ring

theorem haversineKm_0_0_180_0 : haversineKm 0 0 180 0 = 6371 * Real.pi := by
  rw [haversineKm_eq, haversineA_0_0_180_0, sub_self, Real.sqrt_zero, Real.sqrt_one,
    atan2_pos_zero one_pos]
  ring


/-! ## Helper lemmas: numeric bounds for the concrete scenarios -/

theorem half_earth_le_30000 : 6371 * Real.pi / 2 ≤ 30000 := by
  nlinarith [Real.pi_lt_d2]

theorem quarter_turn_not_le_30 : ¬ 6371 * Real.pi / 2 ≤ 30 := by
  nlinarith [Real.pi_gt_three]

theorem antipodal_le_30000 : 6371 * Real.pi ≤ 30000 := by
  nlinarith [Real.pi_lt_d2]

theorem half_earth_gt_round : (1000754 : ℝ) / 100 < 6371 * Real.pi / 2 := by
  nlinarith [Real.pi_gt_d6]

/-- Model of `318550·π` lies strictly between `1000753.5` and `1000754.5`, so the
half-up rounding of `100 · (6371π/2)` is exactly `1000754`. -/
theorem round2_half_earth : round2 (6371 * Real.pi / 2) = (1000754 : ℝ) / 100 := by
  unfold round2
  have hr : round (6371 * Real.pi / 2 * 100) = (1000754 : ℤ) := by
    rw [round_eq, Int.floor_eq_iff]
    constructor
    · push_cast
      nlinarith [Real.pi_gt_d6]
    · push_cast
      nlinarith [Real.pi_lt_d6]
  rw [hr]
  norm_num

/-- A value exceeds its 2-decimal rounding by less than half a cent. -/
theorem le_round2_add (x : ℝ) : x ≤ round2 x + 1 / 200 := by
  unfold round2
  have h := abs_sub_round (x * 100)
  rw [abs_le] at h
  have h1 := h.1
  have h2 := h.2
  linarith

/-! ## Helper lemmas: the stable sort -/

/-- Modelled from the spec: the §4.4 ordering contract — the output is a
permutation of the input, non-decreasing in the sort key, and stable:
every key-non-decreasing sublist of the input survives as a sublist of
the output (so elements with equal keys keep their input order). -/
def IsStableSortBy {β : Type} (k : β → ℝ) (input output : List β) : Prop :=
  output.Perm input ∧
  output.Pairwise (fun a b => k a ≤ k b) ∧
  ∀ c : List β, c.Sublist input → c.Pairwise (fun a b => k a ≤ k b) →
    c.Sublist output

theorem keyLE_trans {β : Type} (k : β → ℝ) (a b c : β) :
    (fun u v => decide (k u ≤ k v)) a b → (fun u v => decide (k u ≤ k v)) b c →
    (fun u v => decide (k u ≤ k v)) a c := by
  simp only [decide_eq_true_eq]
  exact le_trans

theorem keyLE_total {β : Type} (k : β → ℝ) (a b : β) :
    (fun u v => decide (k u ≤ k v)) a b || (fun u v => decide (k u ≤ k v)) b a := by
  simp only [Bool.or_eq_true, decide_eq_true_eq]
  exact le_total (k a) (k b)

/-- Model of `List.mergeSort` with the boolean key comparison meets the spec's
stable-ascending-sort contract. -/
theorem mergeSort_isStableSortBy {β : Type} (k : β → ℝ) (l : List β) :
    IsStableSortBy k l (l.mergeSort (fun u v => decide (k u ≤ k v))) := by
  refine ⟨List.mergeSort_perm l _, ?_, ?_⟩
  · have h := List.sorted_mergeSort (keyLE_trans k) (keyLE_total k) l
    exact h.imp (by simp only [decide_eq_true_eq]; exact fun a => a)
  · intro c hsub hpw
    exact List.sublist_mergeSort (keyLE_trans k) (keyLE_total k)
      (hpw.imp (by simp only [decide_eq_true_eq]; exact fun a => a)) hsub

/-! ## Claim C8: haversine numeric contract -/

/-- C8: for all (real) coordinate pairs, the great-circle distance
function is non-negative, returns exactly 0 for identical points, and is
symmetric (`d(A,B) = d(B,A)`).  (`NaN` inputs do not exist in the real
model; in the source they simply propagate, as the spec notes.) -/
theorem C8_haversine_contract (lat1 lon1 lat2 lon2 : ℝ) :
    0 ≤ haversineKm lat1 lon1 lat2 lon2 ∧
    haversineKm lat1 lon1 lat1 lon1 = 0 ∧
    haversineKm lat1 lon1 lat2 lon2 = haversineKm lat2 lon2 lat1 lon1 :=
  ⟨haversineKm_nonneg lat1 lon1 lat2 lon2, haversineKm_self lat1 lon1,
    haversineKm_symm lat1 lon1 lat2 lon2⟩


/-! ## Claim C3: geocoder not-found unification -/

theorem loadPostcodeRecord_eq (store : String → JFile Api.PostcodeRecord)
    (pc : String) :
    Api.loadPostcodeRecord store pc =
      match store (Api.postcodeToFilename pc) with
      | .absent => none
      | .corrupt => none
      | .parsed json => if json.in_use = some false then none else some json := rfl

/-- C3: the geocoder returns a record exactly when the file is present,
parses, and is not explicitly marked `in_use = false`; a missing file, a
corrupt (unreadable or unparseable) file, and an explicitly not-in-use
record all produce the identical `none` outcome.  (The source converts
thrown I/O and parse errors to this same outcome via its `catch`; the
model is total, so no exception escapes by construction.) -/
theorem C3_geocoder_notfound (store : String → JFile Api.PostcodeRecord)
    (pc : String) :
    (∀ r, Api.loadPostcodeRecord store pc = some r ↔
      store (Api.postcodeToFilename pc) = .parsed r ∧ r.in_use ≠ some false) ∧
    (store (Api.postcodeToFilename pc) = .absent →
      Api.loadPostcodeRecord store pc = none) ∧
    (store (Api.postcodeToFilename pc) = .corrupt →
      Api.loadPostcodeRecord store pc = none) ∧
    (∀ r, store (Api.postcodeToFilename pc) = .parsed r → r.in_use = some false →
      Api.loadPostcodeRecord store pc = none) := by
  refine ⟨?_, ?_, ?_, ?_⟩
  · intro r
    rw [loadPostcodeRecord_eq]
    cases hs : store (Api.postcodeToFilename pc) with
    | absent => simp
    | corrupt => simp
    | parsed json =>
      by_cases hu : json.in_use = some false
      · simp only [if_pos hu]
        constructor
        · intro h
          cases h
        · rintro ⟨hj, hne⟩
          rw [JFile.parsed.injEq] at hj
          subst hj
          exact absurd hu hne
      · simp only [if_neg hu]
        constructor
        · intro h
          rw [Option.some.injEq] at h
          subst h
          exact ⟨rfl, hu⟩
        · rintro ⟨hj, -⟩
          rw [JFile.parsed.injEq] at hj
          subst hj
          rfl
  · intro hs
    rw [loadPostcodeRecord_eq, hs]
  · intro hs
    rw [loadPostcodeRecord_eq, hs]
  · intro r hs hu
    rw [loadPostcodeRecord_eq, hs]
    exact if_pos hu

/-- A concrete record marked not-in-use, for the C3 witness. -/
noncomputable def pcRecNotInUse : Api.PostcodeRecord :=
  { postcode := "S66 7RR", area := "S", district := "S66", sector := "S66 7",
    latitude := 0, longitude := 0, in_use := some false }

/-- C3 witness: a store holding only a record explicitly marked
`in_use = false` yields the same `none` as a store with no file at all. -/
theorem C3_geocoder_notfound_witness :
    Api.loadPostcodeRecord
      (fun f => if f = "S66-7RR.json" then JFile.parsed pcRecNotInUse else .absent)
      "S66 7RR" = none ∧
    Api.loadPostcodeRecord (fun _ => (.absent : JFile Api.PostcodeRecord))
      "S66 7RR" = none := by
  constructor
  · exact (C3_geocoder_notfound _ "S66 7RR").2.2.2 pcRecNotInUse rfl rfl
  · exact (C3_geocoder_notfound _ "S66 7RR").2.1 rfl

/-! ## Claim C10: enrichment frame property -/

/-- C10: the record the enrichment batch saves is the loaded record with
only the `ai` field attached; every other field is unchanged. -/
theorem C10_enrichment_frame (h : Enrich.Hike) (a : Enrich.AiPayload) :
    (Enrich.enrichedRecord h a).id = h.id ∧
    (Enrich.enrichedRecord h a).slug = h.slug ∧
    (Enrich.enrichedRecord h a).name = h.name ∧
    (Enrich.enrichedRecord h a).region = h.region ∧
    (Enrich.enrichedRecord h a).country = h.country ∧
    (Enrich.enrichedRecord h a).distanceKm = h.distanceKm ∧
    (Enrich.enrichedRecord h a).ascentM = h.ascentM ∧
    (Enrich.enrichedRecord h a).difficulty = h.difficulty ∧
    (Enrich.enrichedRecord h a).themes = h.themes ∧
    (Enrich.enrichedRecord h a).transport_access_tags = h.transport_access_tags ∧
    (Enrich.enrichedRecord h a).start_lat = h.start_lat ∧
    (Enrich.enrichedRecord h a).start_lon = h.start_lon ∧
    (Enrich.enrichedRecord h a).source_type = h.source_type ∧
    (Enrich.enrichedRecord h a).source_osmId = h.source_osmId ∧
    (Enrich.enrichedRecord h a).ai = some a := by
  unfold Enrich.enrichedRecord
  exact ⟨rfl, rfl, rfl, rfl, rfl, rfl, rfl, rfl, rfl, rfl, rfl, rfl, rfl, rfl, rfl⟩

/-! ## Claim C2: the postcode normaliser -/

theorem toNat_ofNat_valid {n : ℕ} (h : n < 55296) : (Char.ofNat n).toNat = n := by
  rw [Char.ofNat, dif_pos (Or.inl h)]
  rfl

/-- The whitespace codepoints tested by `isJsWs`, via `Char.toNat`. -/
theorem isJsWs_iff_toNat (c : Char) :
    isJsWs c = true ↔ (c.toNat = 32 ∨ c.toNat = 9 ∨ c.toNat = 10 ∨ c.toNat = 13 ∨
      c.toNat = 11 ∨ c.toNat = 12 ∨ c.toNat = 160 ∨ c.toNat = 65279) := by
  unfold isJsWs
  simp only [Bool.or_eq_true, decide_eq_true_eq]
  constructor
  · rintro (((((((h | h) | h) | h) | h) | h) | h) | h) <;> subst h <;> simp [Char.toNat]
  · intro h
    have hval : Char.ofNat c.toNat = c := Char.ofNat_toNat c
    rcases h with h | h | h | h | h | h | h | h <;>
      · rw [← hval, h]
        simp

/-- Uppercasing a character never changes whether it is whitespace. -/
theorem isJsWs_toUpper (c : Char) : isJsWs c.toUpper = isJsWs c := by
  by_cases h : c.toNat ≥ 97 ∧ c.toNat ≤ 122
  · have h1 : c.toUpper = Char.ofNat (c.toNat - 32) := by
      simp only [Char.toUpper]
      rw [if_pos h]
    have h2 : (Char.ofNat (c.toNat - 32)).toNat = c.toNat - 32 :=
      toNat_ofNat_valid (by omega)
    have hws : isJsWs c = false := by
      rw [← Bool.not_eq_true, isJsWs_iff_toNat]
      omega
    have hws2 : isJsWs c.toUpper = false := by
      rw [← Bool.not_eq_true, isJsWs_iff_toNat, h1, h2]
      omega
    rw [hws, hws2]
  · have h1 : c.toUpper = c := by
      simp only [Char.toUpper]
      rw [if_neg h]
    rw [h1]

/-- Uppercasing is idempotent per character. -/
theorem toUpper_idem (c : Char) : c.toUpper.toUpper = c.toUpper := by
  by_cases h : c.toNat ≥ 97 ∧ c.toNat ≤ 122
  · have h1 : c.toUpper = Char.ofNat (c.toNat - 32) := by
      simp only [Char.toUpper]
      rw [if_pos h]
    have h2 : (Char.ofNat (c.toNat - 32)).toNat = c.toNat - 32 :=
      toNat_ofNat_valid (by omega)
    rw [h1]
    simp only [Char.toUpper]
    rw [if_neg (by rw [h2]; omega)]
  · have h1 : c.toUpper = c := by
      simp only [Char.toUpper]
      rw [if_neg h]
    rw [h1, h1]

/-- Uppercasing fixes the space character. -/
theorem toUpper_space : Char.toUpper ' ' = ' ' := rfl

/-- Stripping whitespace commutes with per-character uppercasing. -/
theorem stripWs_toUpper (l : List Char) :
    (l.map Char.toUpper).filter (fun c => !isJsWs c) =
      (l.filter (fun c => !isJsWs c)).map Char.toUpper := by
  rw [List.filter_map]
  congr 1
  apply List.filter_congr
  intro c _
  simp [Function.comp, isJsWs_toUpper]

/-- Dropping a whitespace prefix does not change the whitespace-free
residue. -/
theorem filter_dropWhile_ws (l : List Char) :
    (l.dropWhile isJsWs).filter (fun c => !isJsWs c) =
      l.filter (fun c => !isJsWs c) := by
  induction l with
  | nil => rfl
  | cons c rest ih =>
    by_cases h : isJsWs c
    · rw [List.dropWhile_cons_of_pos h, ih, List.filter_cons_of_neg (by simp [h])]
    · rw [List.dropWhile_cons_of_neg h]

/-- Trimming does not change the whitespace-free residue. -/
theorem stripWs_jsTrim (s : String) : jsStripWs (jsTrim s) = jsStripWs s := by
  unfold jsStripWs jsTrim
  congr 1
  rw [List.filter_reverse, filter_dropWhile_ws, List.filter_reverse,
    List.reverse_reverse, filter_dropWhile_ws]

/-- The stripped-uppercased string computed by the preprocessing
normaliser equals the uppercased-stripped string of the spec's wording. -/
theorem preStrip_eq_specStrip (s : String) :
    jsStripWs (jsToUpper (jsTrim s)) = jsToUpper (jsStripWs s) := by
  unfold jsStripWs jsToUpper
  congr 1
  rw [show (jsTrim s).data.map Char.toUpper = (⟨(jsTrim s).data.map Char.toUpper⟩ :
    String).data from rfl]
  rw [show ((⟨(jsTrim s).data.map Char.toUpper⟩ : String)).data =
    (jsTrim s).data.map Char.toUpper from rfl]
  rw [stripWs_toUpper]
  congr 1
  have h := stripWs_jsTrim s
  unfold jsStripWs at h
  exact congrArg String.data h

/-- Every character of the collapsed string is a space or came from the
input. -/
theorem mem_collapseWsList : ∀ (l : List Char) (c : Char),
    c ∈ collapseWsList l → c = ' ' ∨ c ∈ l
  | [], c, h => by simp [collapseWsList] at h
  | [d], c, h => by
    by_cases hd : isJsWs d
    · rw [collapseWsList, if_pos hd] at h
      simp at h
      exact Or.inl h
    · rw [collapseWsList, if_neg hd] at h
      simp at h
      subst h
      exact Or.inr (List.mem_singleton.mpr rfl)
  | d :: e :: rest, c, h => by
    by_cases hde : (isJsWs d && isJsWs e) = true
    · rw [collapseWsList, if_pos hde] at h
      rcases mem_collapseWsList (e :: rest) c h with h' | h'
      · exact Or.inl h'
      · exact Or.inr (List.mem_cons_of_mem d h')
    · rw [collapseWsList, if_neg hde] at h
      rcases List.mem_cons.mp h with h' | h'
      · by_cases hd : isJsWs d
        · rw [if_pos hd] at h'
          exact Or.inl h'
        · rw [if_neg hd] at h'
          subst h'
          exact Or.inr (List.mem_cons_self _ _)
      · rcases mem_collapseWsList (e :: rest) c h' with h'' | h''
        · exact Or.inl h''
        · exact Or.inr (List.mem_cons_of_mem d h'')

/-- Every whitespace character surviving the collapse is the space. -/
theorem collapse_ws_is_space : ∀ (l : List Char) (c : Char),
    c ∈ collapseWsList l → isJsWs c = true → c = ' '
  | [], c, h, _ => by simp [collapseWsList] at h
  | [d], c, h, hws => by
    by_cases hd : isJsWs d
    · rw [collapseWsList, if_pos hd] at h
      simpa using h
    · rw [collapseWsList, if_neg hd] at h
      simp at h
      subst h
      exact absurd hws (by simp [hd])
  | d :: e :: rest, c, h, hws => by
    by_cases hde : (isJsWs d && isJsWs e) = true
    · rw [collapseWsList, if_pos hde] at h
      exact collapse_ws_is_space (e :: rest) c h hws
    · rw [collapseWsList, if_neg hde] at h
      rcases List.mem_cons.mp h with h' | h'
      · by_cases hd : isJsWs d
        · rwa [if_pos hd] at h'
        · rw [if_neg hd] at h'
          subst h'
          exact absurd hws (by simp [hd])
      · exact collapse_ws_is_space (e :: rest) c h' hws

/-- If the collapsed string contains no space, it contains no whitespace
at all, is fixed by whitespace-stripping, and (when built from an
uppercased string) is fixed by uppercasing. -/
theorem collapse_no_space_no_ws {l : List Char}
    (h : (collapseWsList l).contains ' ' = false) :
    ∀ c ∈ collapseWsList l, isJsWs c = false := by
  intro c hc
  by_contra hws
  rw [Bool.not_eq_false] at hws
  have := collapse_ws_is_space l c hc hws
  subst this
  have htrue : (collapseWsList l).contains ' ' = true := by
    rw [List.contains_eq_any_beq]
    exact List.any_eq_true.mpr ⟨' ', hc, by simp⟩
  rw [htrue] at h
  cases h

/-- The key fixed-point fact for the route normaliser's space-free
branch: uppercase-then-strip is the identity there. -/
theorem apiT_fixed (s : String)
    (h : (jsCollapseWs (jsToUpper (jsTrim s))).data.contains ' ' = false) :
    jsToUpper (jsStripWs (jsCollapseWs (jsToUpper (jsTrim s)))) =
      jsCollapseWs (jsToUpper (jsTrim s)) := by
  have hno : ∀ c ∈ (jsCollapseWs (jsToUpper (jsTrim s))).data, isJsWs c = false :=
    collapse_no_space_no_ws h
  have hstrip : jsStripWs (jsCollapseWs (jsToUpper (jsTrim s))) =
      jsCollapseWs (jsToUpper (jsTrim s)) := by
    apply String.ext
    show (jsCollapseWs (jsToUpper (jsTrim s))).data.filter (fun c => !isJsWs c) =
      (jsCollapseWs (jsToUpper (jsTrim s))).data
    apply List.filter_eq_self.mpr
    intro a ha
    simp [hno a ha]
  rw [hstrip]
  have hupper : ∀ c ∈ (jsCollapseWs (jsToUpper (jsTrim s))).data,
      Char.toUpper c = c := by
    intro c hc
    rcases mem_collapseWsList _ c hc with h' | h'
    · subst h'
      exact toUpper_space
    · rcases List.mem_map.mp h' with ⟨d, _, hd⟩
      subst hd
      exact toUpper_idem d
  apply String.ext
  show (jsCollapseWs (jsToUpper (jsTrim s))).data.map Char.toUpper =
    (jsCollapseWs (jsToUpper (jsTrim s))).data
  rw [List.map_congr_left hupper]
  exact List.map_id _

/-- C2 counterexample: on `"S667 RR"` the API route's normaliser keeps
the (misplaced) existing space instead of stripping all whitespace and
re-splitting before the last 3 characters, so it does not implement the
claimed algorithm. -/
theorem C2_normaliser_counterexample :
    Api.normalisePostcode "S667 RR" = "S667 RR" ∧
    normalisePostcodeSpec "S667 RR" = "S66 7RR" ∧
    Api.normalisePostcode "S667 RR" ≠ normalisePostcodeSpec "S667 RR" := by
  refine ⟨by decide, by decide, by decide⟩

/-- C2 (amended): the preprocessing normaliser implements the claimed
algorithm exactly (strip all whitespace, uppercase, split before the
last 3 characters, strings of ≤ 3 characters unsplit, empty in ⇒ empty
out); the API route's normaliser instead collapses whitespace runs to
single spaces after trimming and uppercasing, returns any string still
containing a space unchanged, and applies the claimed algorithm only to
space-free strings.  Both return `""` on empty or whitespace-only input,
and both are total (never throw or index out of bounds). -/
theorem C2_normaliser_amended (s : String) :
    Pre.normalisePostcode s = normalisePostcodeSpec s ∧
    Api.normalisePostcode s =
      (if (jsCollapseWs (jsToUpper (jsTrim s))).data.contains ' '
       then jsCollapseWs (jsToUpper (jsTrim s))
       else normalisePostcodeSpec (jsCollapseWs (jsToUpper (jsTrim s)))) ∧
    (s.data.all isJsWs →
      Pre.normalisePostcode s = "" ∧ Api.normalisePostcode s = "") := by
  have hpre : Pre.normalisePostcode s = normalisePostcodeSpec s := by
    unfold Pre.normalisePostcode normalisePostcodeSpec
    rw [preStrip_eq_specStrip]
  have hapi : Api.normalisePostcode s =
      (if (jsCollapseWs (jsToUpper (jsTrim s))).data.contains ' '
       then jsCollapseWs (jsToUpper (jsTrim s))
       else normalisePostcodeSpec (jsCollapseWs (jsToUpper (jsTrim s)))) := by
    by_cases hc : (jsCollapseWs (jsToUpper (jsTrim s))).data.contains ' ' = true
    · unfold Api.normalisePostcode
      rw [if_pos hc, if_pos hc]
    · rw [Bool.not_eq_true] at hc
      have hfix := apiT_fixed s hc
      unfold Api.normalisePostcode normalisePostcodeSpec
      rw [hfix]
      dsimp only
      split_ifs with h1 h2 h3 h4 h5 h6
      · rfl
      · rw [h3] at h2
        simp at h2
      · omega
      · rfl
      · exact h5
      · rfl
      · omega
  refine ⟨hpre, hapi, ?_⟩
  intro hws
  have hdata : jsStripWs s = "" := by
    apply String.ext
    show s.data.filter (fun c => !isJsWs c) = ([] : List Char)
    rw [List.filter_eq_nil_iff]
    intro a ha
    simp [List.all_eq_true.mp hws a ha]
  constructor
  · rw [hpre]
    unfold normalisePostcodeSpec
    rw [hdata]
    rfl
  · rw [hapi]
    have htrim : jsTrim s = "" := by
      apply String.ext
      show ((s.data.dropWhile isJsWs).reverse.dropWhile isJsWs).reverse = ([] : List Char)
      have h1 : s.data.dropWhile isJsWs = [] := by
        rw [List.dropWhile_eq_nil_iff]
        exact fun x hx => List.all_eq_true.mp hws x hx
      rw [h1]
      rfl
    rw [htrim]
    rfl

/-- C2 witness: on whitespace-only input both normalisers return `""`. -/
theorem C2_normaliser_amended_witness :
    Pre.normalisePostcode "   " = "" ∧ Api.normalisePostcode "   " = "" :=
  (C2_normaliser_amended "   ").2.2 (by decide)

/-! ## Concrete scenario data for the search claims -/

/-- A reference hike at the origin. -/
noncomputable def hikeC : Lib.Hike :=
  { slug := "c", start := some { lat := some 0, lon := some 0 } }

/-- A candidate hike whose start is 90° of latitude away (a valid
coordinate); its distance from `hikeC` is `6371·π/2 ≈ 10008` km. -/
noncomputable def hikeX90 : Lib.Hike :=
  { slug := "x", start := some { lat := some 90, lon := some 0 } }

/-- A candidate hike with the out-of-range latitude 180°. -/
noncomputable def hikeX180 : Lib.Hike :=
  { slug := "x", start := some { lat := some 180, lon := some 0 } }

/-- A candidate hike sharing `hikeC`'s exact start coordinates. -/
noncomputable def hikeX00 : Lib.Hike :=
  { slug := "x", start := some { lat := some 0, lon := some 0 } }

/-- Directory: reference plus the 90°-away candidate. -/
noncomputable def dir90 : Lib.HikeDir :=
  [("c", .parsed hikeC), ("x", .parsed hikeX90)]

/-- Directory: reference plus the invalid-latitude candidate. -/
noncomputable def dir180 : Lib.HikeDir :=
  [("c", .parsed hikeC), ("x", .parsed hikeX180)]

/-- Directory: reference plus a coordinate-sharing candidate. -/
noncomputable def dir00 : Lib.HikeDir :=
  [("c", .parsed hikeC), ("x", .parsed hikeX00)]

/-! ## Pipeline stages, named for the statements of the search claims
(each is definitionally the corresponding stage of the source chain) -/

namespace Lib

/-- The candidate corpus of `getNearbyHikes`: every loaded hike other
than the reference slug that has numeric start coordinates, in corpus
order. -/
def searchCandidates (dir : HikeDir) (slug : String) : List Hike :=
  ((getAllHikes dir).filter (fun h => h.slug ≠ slug)).filter
    (fun h => (h.start.bind (·.lat)).isSome && (h.start.bind (·.lon)).isSome)

/-- The `.map` stage: candidates annotated with the raw haversine
distance from the reference coordinates. -/
noncomputable def withDistance (dir : HikeDir) (slug : String) (clat clon : ℝ) :
    List (Hike × ℝ) :=
  (searchCandidates dir slug).map (fun h =>
    (h, haversineKm clat clon
      ((h.start.bind (·.lat)).getD 0) ((h.start.bind (·.lon)).getD 0)))

/-- The `.filter` stage: annotated candidates within the radius. -/
noncomputable def inRadius (dir : HikeDir) (slug : String) (clat clon maxD : ℝ) :
    List (Hike × ℝ) :=
  (withDistance dir slug clat clon).filter (fun p => decide (p.2 ≤ maxD))

end Lib

/-- What `getNearbyHikes` returns on its main branch: the in-radius
annotated candidates, stably merge-sorted by distance, truncated. -/
theorem getNearbyHikes_ok_characterisation
    (dir : Lib.HikeDir) (slug : String) (maxD : ℝ) (lim : ℕ)
    (center : Lib.Hike) (cst : Lib.HikeStart) (clat clon : ℝ)
    (h1 : Lib.getHikeBySlug dir slug = some center)
    (h2 : center.start = some cst)
    (h3 : cst.lat = some clat) (h4 : cst.lon = some clon) :
    Lib.getNearbyHikes dir slug maxD lim =
      .ok (((Lib.inRadius dir slug clat clon maxD).mergeSort Lib.distLE).take lim) := by
  unfold Lib.getNearbyHikes
  rw [h1]
  dsimp only
  rw [h2]
  dsimp only
  rw [h3, h4]
  rfl

namespace Api

/-- The `.map` stage of the route: every loaded hike annotated with the
**rounded** distance from the postcode record. -/
noncomputable def annotated (pcRecord : PostcodeRecord)
    (hikeFiles : List (JFile Hike)) : List (Hike × ℝ) :=
  (loadAllHikes hikeFiles).map (fun hike =>
    (hike, round2 (haversineDistanceKm pcRecord.latitude pcRecord.longitude
      ((hike.start.bind (·.lat)).getD 0) ((hike.start.bind (·.lon)).getD 0))))

/-- The `.filter` stage of the route (the rounded distance is compared
with the radius). -/
noncomputable def inRadius (pcRecord : PostcodeRecord)
    (hikeFiles : List (JFile Hike)) (maxD : ℝ) : List (Hike × ℝ) :=
  (annotated pcRecord hikeFiles).filter (fun p => decide (p.2 ≤ maxD))

end Api

/-- What the route returns on its 200 branch. -/
theorem GET_ok_characterisation (jsNumber : String → Option ℝ)
    (pcStore : String → JFile Api.PostcodeRecord)
    (hikeFiles : List (JFile Api.Hike))
    (pcs : String) (rawDistance rawLimit : Option String)
    (maxD lim : ℝ) (pcRecord : Api.PostcodeRecord)
    (hpc : pcs ≠ "")
    (hd : jsNumber (rawDistance.getD "50") = some maxD) (hd0 : ¬ maxD ≤ 0)
    (hl : jsNumber (rawLimit.getD "20") = some lim) (hl0 : ¬ lim ≤ 0)
    (hrec : Api.loadPostcodeRecord pcStore (Api.normalisePostcode pcs) = some pcRecord)
    (hne : ¬ (Api.loadAllHikes hikeFiles).isEmpty = true) :
    Api.GET jsNumber pcStore hikeFiles (some pcs) rawDistance rawLimit =
      .ok { postcode := pcRecord.postcode
            normalisedPostcode := Api.normalisePostcode pcs
            maxDistanceKm := maxD
            limit := lim
            resultCount := (((Api.inRadius pcRecord hikeFiles maxD).mergeSort
              Api.distLE).take (Int.toNat ⌊lim⌋)).length
            results := ((Api.inRadius pcRecord hikeFiles maxD).mergeSort
              Api.distLE).take (Int.toNat ⌊lim⌋) } := by
  unfold Api.GET
  rw [if_neg (by simpa using hpc)]
  simp only [Option.getD_some]
  rw [hd]
  dsimp only
  rw [if_neg hd0, hl]
  dsimp only
  rw [if_neg hl0, hrec]
  dsimp only
  rw [if_neg hne]
  rfl

/-! ## Membership and ordering through the sort-truncate pipeline -/

theorem mem_of_take_mergeSort {β : Type} {le : β → β → Bool} {l : List β}
    {n : ℕ} {p : β} (h : p ∈ (l.mergeSort le).take n) : p ∈ l :=
  List.mem_mergeSort.mp (List.mem_of_mem_take h)

/-- Anything in the truncated sorted in-radius list of `getNearbyHikes`
is an annotated candidate whose annotation is its raw haversine distance,
within the radius. -/
theorem lib_result_mem {dir : Lib.HikeDir} {slug : String} {clat clon maxD : ℝ}
    {lim : ℕ} {p : Lib.Hike × ℝ}
    (h : p ∈ ((Lib.inRadius dir slug clat clon maxD).mergeSort Lib.distLE).take lim) :
    p.1 ∈ Lib.searchCandidates dir slug ∧
    p.2 = haversineKm clat clon
      ((p.1.start.bind (·.lat)).getD 0) ((p.1.start.bind (·.lon)).getD 0) ∧
    p.2 ≤ maxD := by
  have h1 : p ∈ Lib.inRadius dir slug clat clon maxD := mem_of_take_mergeSort h
  unfold Lib.inRadius at h1
  have h2 := List.mem_filter.mp h1
  have hle : p.2 ≤ maxD := by simpa using h2.2
  have h3 := h2.1
  unfold Lib.withDistance at h3
  rcases List.mem_map.mp h3 with ⟨hk, hmem, heq⟩
  subst heq
  exact ⟨hmem, rfl, hle⟩

/-- Anything in the truncated sorted in-radius list of the route is a
loaded hike annotated with the **rounded** distance, within the radius. -/
theorem api_result_mem {pcRecord : Api.PostcodeRecord}
    {hikeFiles : List (JFile Api.Hike)} {maxD : ℝ} {n : ℕ} {p : Api.Hike × ℝ}
    (h : p ∈ ((Api.inRadius pcRecord hikeFiles maxD).mergeSort Api.distLE).take n) :
    p.1 ∈ Api.loadAllHikes hikeFiles ∧
    p.2 = round2 (haversineDistanceKm pcRecord.latitude pcRecord.longitude
      ((p.1.start.bind (·.lat)).getD 0) ((p.1.start.bind (·.lon)).getD 0)) ∧
    p.2 ≤ maxD := by
  have h1 : p ∈ Api.inRadius pcRecord hikeFiles maxD := mem_of_take_mergeSort h
  unfold Api.inRadius at h1
  have h2 := List.mem_filter.mp h1
  have hle : p.2 ≤ maxD := by simpa using h2.2
  have h3 := h2.1
  unfold Api.annotated at h3
  rcases List.mem_map.mp h3 with ⟨hk, hmem, heq⟩
  subst heq
  exact ⟨hmem, rfl, hle⟩

/-- The truncated merge-sorted list is sorted by the annotation. -/
theorem take_mergeSort_pairwise {β : Type} (k : β → ℝ) (l : List β) (n : ℕ) :
    ((l.mergeSort (fun u v => decide (k u ≤ k v))).take n).Pairwise
      (fun a b => k a ≤ k b) := by
  have h := (mergeSort_isStableSortBy k l).2.1
  exact h.sublist (List.take_sublist n _)

/-! ## Claim C1: proximity search output contract -/

/-- C1 (amended): both searches return at most `limit` results, sorted
ascending by their distance annotation with ties stable in corpus order.
`getNearbyHikes` filters on the **raw** haversine distance, so every
result's computed distance is at most `maxDistanceKm`.  The API route
annotates first, rounding to 2 decimal places, and filters and sorts on
the **rounded** value, so a result's rounded distance is at most
`maxDistanceKm` while its raw computed distance can exceed
`maxDistanceKm` by up to `0.005` km. -/
theorem C1_search_contract :
    (∀ (dir : Lib.HikeDir) (slug : String) (maxD : ℝ) (lim : ℕ)
      (center : Lib.Hike) (cst : Lib.HikeStart) (clat clon : ℝ)
      (r : List (Lib.Hike × ℝ)),
      0 < maxD → 0 < lim →
      Lib.getHikeBySlug dir slug = some center →
      center.start = some cst → cst.lat = some clat → cst.lon = some clon →
      Lib.getNearbyHikes dir slug maxD lim = .ok r →
      (∀ p ∈ r, p.2 ≤ maxD) ∧
      r.Pairwise (fun a b : Lib.Hike × ℝ => a.2 ≤ b.2) ∧
      r.length ≤ lim ∧
      (∃ s : List (Lib.Hike × ℝ),
        IsStableSortBy (fun p => p.2) (Lib.inRadius dir slug clat clon maxD) s ∧
        r = s.take lim)) ∧
    (∀ (jsNumber : String → Option ℝ)
      (pcStore : String → JFile Api.PostcodeRecord)
      (hikeFiles : List (JFile Api.Hike)) (pcs : String)
      (rawDistance rawLimit : Option String) (maxD lim : ℝ)
      (pcRecord : Api.PostcodeRecord) (payload : Api.OkPayload),
      0 < maxD → 0 < lim → pcs ≠ "" →
      jsNumber (rawDistance.getD "50") = some maxD →
      jsNumber (rawLimit.getD "20") = some lim →
      Api.loadPostcodeRecord pcStore (Api.normalisePostcode pcs) = some pcRecord →
      (Api.loadAllHikes hikeFiles).isEmpty = false →
      Api.GET jsNumber pcStore hikeFiles (some pcs) rawDistance rawLimit = .ok payload →
      (∀ p ∈ payload.results, p.2 ≤ maxD ∧
        haversineDistanceKm pcRecord.latitude pcRecord.longitude
          ((p.1.start.bind (·.lat)).getD 0) ((p.1.start.bind (·.lon)).getD 0)
          ≤ maxD + 1 / 200) ∧
      payload.results.Pairwise (fun a b : Api.Hike × ℝ => a.2 ≤ b.2) ∧
      payload.results.length ≤ Int.toNat ⌊lim⌋ ∧
      (∃ s : List (Api.Hike × ℝ),
        IsStableSortBy (fun p => p.2) (Api.inRadius pcRecord hikeFiles maxD) s ∧
        payload.results = s.take (Int.toNat ⌊lim⌋))) := by
  constructor
  · intro dir slug maxD lim center cst clat clon r _ _ h1 h2 h3 h4 hok
    rw [getNearbyHikes_ok_characterisation dir slug maxD lim center cst clat clon
      h1 h2 h3 h4] at hok
    injection hok with hr
    subst hr
    refine ⟨fun p hp => (lib_result_mem hp).2.2, ?_, List.length_take_le _ _, ?_⟩
    · exact take_mergeSort_pairwise (fun p : Lib.Hike × ℝ => p.2) _ lim
    · exact ⟨_, mergeSort_isStableSortBy (fun p : Lib.Hike × ℝ => p.2) _, rfl⟩
  · intro jsN pcS files pcs rawD rawL maxD lim pcRecord payload _ _ hpc hd hl hrec hne hok
    rw [GET_ok_characterisation jsN pcS files pcs rawD rawL maxD lim pcRecord hpc hd
      (by intro hle; linarith) hl (by intro hle; linarith) hrec (by rw [hne]; exact
        Bool.false_ne_true)] at hok
    injection hok with hp
    subst hp
    refine ⟨?_, ?_, List.length_take_le _ _, ?_⟩
    · intro p hp
      refine ⟨(api_result_mem hp).2.2, ?_⟩
      have h2 := (api_result_mem hp).2.1
      have h3 := (api_result_mem hp).2.2
      have h4 := le_round2_add (haversineDistanceKm pcRecord.latitude pcRecord.longitude
        ((p.1.start.bind (·.lat)).getD 0) ((p.1.start.bind (·.lon)).getD 0))
      rw [← h2] at h4
      linarith
    · exact take_mergeSort_pairwise (fun p : Api.Hike × ℝ => p.2) _ _
    · exact ⟨_, mergeSort_isStableSortBy (fun p : Api.Hike × ℝ => p.2) _, rfl⟩

/-- C1 witness: the contract instantiated on a concrete two-hike store
with `maxDistanceKm = 30000`, `limit = 4`. -/
theorem C1_search_contract_witness :
    (∀ p ∈ (((Lib.inRadius dir90 "c" 0 0 30000).mergeSort Lib.distLE).take 4 :
        List (Lib.Hike × ℝ)), p.2 ≤ 30000) ∧
    (((Lib.inRadius dir90 "c" 0 0 30000).mergeSort Lib.distLE).take 4).Pairwise
      (fun a b : Lib.Hike × ℝ => a.2 ≤ b.2) ∧
    (((Lib.inRadius dir90 "c" 0 0 30000).mergeSort Lib.distLE).take 4).length ≤ 4 ∧
    (∃ s : List (Lib.Hike × ℝ),
      IsStableSortBy (fun p => p.2) (Lib.inRadius dir90 "c" 0 0 30000) s ∧
      ((Lib.inRadius dir90 "c" 0 0 30000).mergeSort Lib.distLE).take 4 = s.take 4) :=
  C1_search_contract.1 dir90 "c" 30000 4 hikeC ⟨some 0, some 0, none, none⟩ 0 0 _
    (by norm_num) (by norm_num) rfl rfl rfl rfl
    (getNearbyHikes_ok_characterisation dir90 "c" 30000 4 hikeC
      ⟨some 0, some 0, none, none⟩ 0 0 rfl rfl rfl rfl)

/-! ## Concrete route scenario -/

/-- A postcode record at the origin. -/
noncomputable def pcRec00 : Api.PostcodeRecord :=
  { postcode := "S66 7RR", area := "S", district := "S66", sector := "S66 7",
    latitude := 0, longitude := 0 }

/-- A store holding exactly that record. -/
noncomputable def pcStore0 : String → JFile Api.PostcodeRecord :=
  fun f => if f = "S66-7RR.json" then .parsed pcRec00 else .absent

/-- A route hike 90° of latitude from the postcode. -/
noncomputable def apiHikeX90 : Api.Hike :=
  { slug := "x", start := some { lat := some 90, lon := some 0 } }

/-- The hikes directory of the route scenario. -/
noncomputable def hikeFiles90 : List (JFile Api.Hike) := [.parsed apiHikeX90]

/-- The concrete behaviour of `Number(...)` on the three strings this
scenario parses (decimal literals read exactly; everything else `NaN`). -/
noncomputable def jsNum0 : String → Option ℝ :=
  fun s =>
    if s = "10007.54" then some (1000754 / 100)
    else if s = "20" then some 20
    else if s = "50" then some 50
    else none

theorem haversineDistanceKm_0_0_90_0 :
    haversineDistanceKm 0 0 90 0 = 6371 * Real.pi / 2 := haversineKm_0_0_90_0

/-- The route scenario evaluated: the hike at true distance
`6371·π/2 ≈ 10007.5434` km is returned under `distance=10007.54`,
because its **rounded** distance `10007.54` passes the filter. -/
theorem GET_route_eval :
    Api.GET jsNum0 pcStore0 hikeFiles90 (some "S66 7RR") (some "10007.54") none =
      .ok { postcode := "S66 7RR", normalisedPostcode := "S66 7RR",
            maxDistanceKm := 1000754 / 100, limit := 20,
            resultCount := 1,
            results := [(apiHikeX90, round2 (6371 * Real.pi / 2))] } := by
  have hchar := GET_ok_characterisation jsNum0 pcStore0 hikeFiles90 "S66 7RR"
    (some "10007.54") none (1000754 / 100) 20 pcRec00
    (by decide) rfl (by norm_num) rfl (by norm_num) rfl
    (fun h => Bool.false_ne_true h)
  have hlist : Api.inRadius pcRec00 hikeFiles90 (1000754 / 100) =
      [(apiHikeX90, round2 (6371 * Real.pi / 2))] := by
    show ([(apiHikeX90, round2 (haversineDistanceKm 0 0 90 0))].filter
      (fun p => decide (p.2 ≤ (1000754 / 100 : ℝ)))) =
      [(apiHikeX90, round2 (6371 * Real.pi / 2))]
    rw [haversineDistanceKm_0_0_90_0, List.filter_cons,
      if_pos (decide_eq_true (le_of_eq round2_half_earth))]
    rfl
  have h20 : (⌊(20 : ℝ)⌋).toNat = 20 := by
    rw [show ((20 : ℝ)) = ((20 : ℤ) : ℝ) by norm_num, Int.floor_intCast]
    rfl
  have hres : ((Api.inRadius pcRec00 hikeFiles90 (1000754 / 100)).mergeSort
      Api.distLE).take ((⌊(20 : ℝ)⌋).toNat) =
      [(apiHikeX90, round2 (6371 * Real.pi / 2))] := by
    rw [hlist, List.mergeSort_singleton, h20]
    rfl
  rw [hchar, hres]
  rfl

/-- C1 counterexample: with `distance=10007.54`, the route returns the
hike whose raw computed distance is `6371·π/2 ≈ 10007.5434 km`, which
exceeds `maxDistanceKm`; only its 2-decimal rounding (`10007.54`)
passes the filter.  So the claim's "never returns a candidate whose
computed distance exceeds `maxDistanceKm`" is false for the route. -/
theorem C1_search_contract_counterexample :
    Api.GET jsNum0 pcStore0 hikeFiles90 (some "S66 7RR") (some "10007.54") none =
      .ok { postcode := "S66 7RR", normalisedPostcode := "S66 7RR",
            maxDistanceKm := 1000754 / 100, limit := 20,
            resultCount := 1,
            results := [(apiHikeX90, round2 (6371 * Real.pi / 2))] } ∧
    haversineDistanceKm pcRec00.latitude pcRec00.longitude
      ((apiHikeX90.start.bind (·.lat)).getD 0) ((apiHikeX90.start.bind (·.lon)).getD 0)
      = 6371 * Real.pi / 2 ∧
    round2 (6371 * Real.pi / 2) ≤ 1000754 / 100 ∧
    1000754 / 100 < 6371 * Real.pi / 2 :=
  ⟨GET_route_eval, haversineDistanceKm_0_0_90_0, le_of_eq round2_half_earth,
    half_earth_gt_round⟩

/-! ## Evaluating the lib pipeline on the concrete stores -/

theorem pipeline_singleton_eval (p : Lib.Hike × ℝ) (maxD : ℝ) (lim : ℕ) :
    (([p].filter (fun q => decide (q.2 ≤ maxD))).mergeSort Lib.distLE).take lim =
      if p.2 ≤ maxD then [p].take lim else [] := by
  by_cases h : p.2 ≤ maxD
  · rw [if_pos h, List.filter_cons, if_pos (decide_eq_true h), List.filter_nil,
      List.mergeSort_singleton]
  · rw [if_neg h, List.filter_cons,
      if_neg (by rw [decide_eq_false h]; exact Bool.false_ne_true),
      List.filter_nil, List.mergeSort_nil, List.take_nil]

theorem getNearby_dir90_eval (maxD : ℝ) (lim : ℕ) :
    Lib.getNearbyHikes dir90 "c" maxD lim =
      .ok (if haversineKm 0 0 90 0 ≤ maxD
           then [(hikeX90, haversineKm 0 0 90 0)].take lim else []) := by
  rw [getNearbyHikes_ok_characterisation dir90 "c" maxD lim hikeC
    ⟨some 0, some 0, none, none⟩ 0 0 rfl rfl rfl rfl]
  congr 1
  show (([(hikeX90, haversineKm 0 0 90 0)].filter
    (fun q => decide (q.2 ≤ maxD))).mergeSort Lib.distLE).take lim = _
  exact pipeline_singleton_eval _ maxD lim

theorem getNearby_dir180_eval (maxD : ℝ) (lim : ℕ) :
    Lib.getNearbyHikes dir180 "c" maxD lim =
      .ok (if haversineKm 0 0 180 0 ≤ maxD
           then [(hikeX180, haversineKm 0 0 180 0)].take lim else []) := by
  rw [getNearbyHikes_ok_characterisation dir180 "c" maxD lim hikeC
    ⟨some 0, some 0, none, none⟩ 0 0 rfl rfl rfl rfl]
  congr 1
  show (([(hikeX180, haversineKm 0 0 180 0)].filter
    (fun q => decide (q.2 ≤ maxD))).mergeSort Lib.distLE).take lim = _
  exact pipeline_singleton_eval _ maxD lim

theorem getNearby_dir00_eval (maxD : ℝ) (lim : ℕ) :
    Lib.getNearbyHikes dir00 "c" maxD lim =
      .ok (if haversineKm 0 0 0 0 ≤ maxD
           then [(hikeX00, haversineKm 0 0 0 0)].take lim else []) := by
  rw [getNearbyHikes_ok_characterisation dir00 "c" maxD lim hikeC
    ⟨some 0, some 0, none, none⟩ 0 0 rfl rfl rfl rfl]
  congr 1
  show (([(hikeX00, haversineKm 0 0 0 0)].filter
    (fun q => decide (q.2 ≤ maxD))).mergeSort Lib.distLE).take lim = _
  exact pipeline_singleton_eval _ maxD lim

/-! ## Claim C4: coordinate-validity participation -/

/-- A candidate surviving the corpus filters has present, numeric
coordinates. -/
theorem searchCandidates_coords {dir : Lib.HikeDir} {slug : String}
    {h : Lib.Hike} (hm : h ∈ Lib.searchCandidates dir slug) :
    (h.start.bind (·.lat)).isSome ∧ (h.start.bind (·.lon)).isSome := by
  unfold Lib.searchCandidates at hm
  have h2 := (List.mem_filter.mp hm).2
  rw [Bool.and_eq_true] at h2
  exact ⟨h2.1, h2.2⟩

/-- Everything in any `.ok` result of `getNearbyHikes` has present,
numeric coordinates (over every branch of the function). -/
theorem getNearbyHikes_ok_mem_coords {dir : Lib.HikeDir} {slug : String}
    {maxD : ℝ} {lim : ℕ} {r : List (Lib.Hike × ℝ)}
    (hok : Lib.getNearbyHikes dir slug maxD lim = .ok r) :
    ∀ p ∈ r, (p.1.start.bind (·.lat)).isSome ∧ (p.1.start.bind (·.lon)).isSome := by
  intro p hp
  unfold Lib.getNearbyHikes at hok
  split at hok
  · injection hok with hr
    subst hr
    cases hp
  · split at hok
    · dsimp only at hok
      split at hok
      · injection hok with hr
        subst hr
        cases hp
      · cases hok
    · split at hok
      · injection hok with hr
        subst hr
        exact searchCandidates_coords (lib_result_mem hp).1
      · injection hok with hr
        subst hr
        cases hp

/-- C4 (amended): a trail record participates in proximity search iff
its `start.lat` and `start.lon` are **present and numeric** — the source
checks `typeof === 'number'` only and performs no degree-range check, so
out-of-range numeric coordinates still participate.  Records failing the
presence check are silently excluded: the route's loader keeps only
coordinate-bearing hikes, every hike returned by `getNearbyHikes` bears
coordinates, and the search completes without an exception whenever the
reference trail itself has numeric coordinates. -/
theorem C4_coordinate_participation :
    (∀ (files : List (JFile Api.Hike))
      (h : Api.Hike), h ∈ Api.loadAllHikes files →
      (h.start.bind (·.lat)).isSome ∧ (h.start.bind (·.lon)).isSome) ∧
    (∀ (dir : Lib.HikeDir) (slug : String) (maxD : ℝ) (lim : ℕ)
      (r : List (Lib.Hike × ℝ)) (p : Lib.Hike × ℝ),
      Lib.getNearbyHikes dir slug maxD lim = .ok r → p ∈ r →
      (p.1.start.bind (·.lat)).isSome ∧ (p.1.start.bind (·.lon)).isSome) ∧
    (∀ (dir : Lib.HikeDir) (slug : String) (maxD : ℝ) (lim : ℕ)
      (center : Lib.Hike) (cst : Lib.HikeStart) (clat clon : ℝ),
      Lib.getHikeBySlug dir slug = some center → center.start = some cst →
      cst.lat = some clat → cst.lon = some clon →
      ∃ r, Lib.getNearbyHikes dir slug maxD lim = .ok r) := by
  refine ⟨?_, ?_, ?_⟩
  · intro files h hm
    unfold Api.loadAllHikes at hm
    rcases List.mem_filterMap.mp hm with ⟨f, _, hf⟩
    cases f with
    | absent => cases hf
    | corrupt => cases hf
    | parsed hike =>
      dsimp only at hf
      split_ifs at hf with hcond
      injection hf with hh
      subst hh
      exact ⟨hcond.1, hcond.2⟩
  · intro dir slug maxD lim r p hok hp
    exact getNearbyHikes_ok_mem_coords hok p hp
  · intro dir slug maxD lim center cst clat clon h1 h2 h3 h4
    exact ⟨_, getNearbyHikes_ok_characterisation dir slug maxD lim center cst
      clat clon h1 h2 h3 h4⟩

/-- C4 counterexample: a record with the out-of-range latitude `180`
(`typeof` is still `number`) participates in and is returned by the
search — the claimed `-90..90` / `-180..180` validity filter does not
exist in the code. -/
theorem C4_counterexample :
    Lib.getNearbyHikes dir180 "c" 30000 4 = .ok [(hikeX180, 6371 * Real.pi)] ∧
    (hikeX180.start.bind (·.lat)).getD 0 = 180 ∧
    ¬ ((-90 : ℝ) ≤ 180 ∧ (180 : ℝ) ≤ 90) := by
  refine ⟨?_, rfl, by norm_num⟩
  rw [getNearby_dir180_eval 30000 4, haversineKm_0_0_180_0,
    if_pos antipodal_le_30000]
  rfl

/-- C4 witness: the amended participation condition instantiated on the
concrete store: the returned record carries present numeric coordinates
(even though they are out of range). -/
theorem C4_coordinate_participation_witness :
    ((hikeX180.start.bind (·.lat)).isSome ∧ (hikeX180.start.bind (·.lon)).isSome) := by
  have heval : Lib.getNearbyHikes dir180 "c" 30000 4 =
      .ok [(hikeX180, 6371 * Real.pi)] := by
    rw [getNearby_dir180_eval 30000 4, haversineKm_0_0_180_0,
      if_pos antipodal_le_30000]
    rfl
  exact C4_coordinate_participation.2.1 dir180 "c" 30000 4 _
    (hikeX180, 6371 * Real.pi) heval (List.mem_singleton.mpr rfl)

/-! ## Claim C7: self-exclusion by slug -/

theorem searchCandidates_not_self {dir : Lib.HikeDir} {slug : String}
    {h : Lib.Hike} (hm : h ∈ Lib.searchCandidates dir slug) : h.slug ≠ slug := by
  unfold Lib.searchCandidates at hm
  have h1 := (List.mem_filter.mp (List.mem_filter.mp hm).1).2
  simpa using h1

/-- Everything in any `.ok` result of `getNearbyHikes` came from the
slug-and-coordinate-filtered candidate corpus. -/
theorem getNearbyHikes_ok_mem_candidates {dir : Lib.HikeDir} {slug : String}
    {maxD : ℝ} {lim : ℕ} {r : List (Lib.Hike × ℝ)}
    (hok : Lib.getNearbyHikes dir slug maxD lim = .ok r) :
    ∀ p ∈ r, p.1 ∈ Lib.searchCandidates dir slug := by
  intro p hp
  unfold Lib.getNearbyHikes at hok
  split at hok
  · injection hok with hr
    subst hr
    cases hp
  · split at hok
    · dsimp only at hok
      split at hok
      · injection hok with hr
        subst hr
        cases hp
      · cases hok
    · split at hok
      · injection hok with hr
        subst hr
        exact (lib_result_mem hp).1
      · injection hok with hr
        subst hr
        cases hp

/-- C7: the trail-anchored search never returns the reference slug
itself — the exclusion is by slug identity — while a **distinct** trail
whose start coordinates are identical to the reference's is still
returned (here at distance exactly 0). -/
theorem C7_self_exclusion :
    (∀ (dir : Lib.HikeDir) (slug : String) (maxD : ℝ) (lim : ℕ)
      (r : List (Lib.Hike × ℝ)) (p : Lib.Hike × ℝ),
      Lib.getNearbyHikes dir slug maxD lim = .ok r → p ∈ r → p.1.slug ≠ slug) ∧
    (Lib.getNearbyHikes dir00 "c" 30 4 = .ok [(hikeX00, 0)] ∧
      hikeX00.start = hikeC.start ∧ hikeX00.slug ≠ hikeC.slug) := by
  constructor
  · intro dir slug maxD lim r p hok hp
    exact searchCandidates_not_self (getNearbyHikes_ok_mem_candidates hok p hp)
  · refine ⟨?_, rfl, by decide⟩
    rw [getNearby_dir00_eval 30 4, haversineKm_self, if_pos (by norm_num : (0:ℝ) ≤ 30)]
    rfl

/-- C7 witness: the exclusion theorem applied to the concrete store. -/
theorem C7_self_exclusion_witness : hikeX00.slug ≠ "c" := by
  have heval : Lib.getNearbyHikes dir00 "c" 30 4 = .ok [(hikeX00, 0)] := by
    rw [getNearby_dir00_eval 30 4, haversineKm_self, if_pos (by norm_num : (0:ℝ) ≤ 30)]
    rfl
  exact C7_self_exclusion.1 dir00 "c" 30 4 _ (hikeX00, 0) heval
    (List.mem_singleton.mpr rfl)

/-! ## Claim C6: distance annotation and rounding -/

/-- C6 (amended): every candidate returned by the **route** is annotated
with its computed distance rounded to 2 decimal places, but every
candidate returned by the trail-anchored `getNearbyHikes` is annotated
with the **raw, unrounded** haversine distance. -/
theorem C6_distance_annotation :
    (∀ (jsNumber : String → Option ℝ)
      (pcStore : String → JFile Api.PostcodeRecord)
      (hikeFiles : List (JFile Api.Hike)) (pcs : String)
      (rawDistance rawLimit : Option String) (maxD lim : ℝ)
      (pcRecord : Api.PostcodeRecord) (payload : Api.OkPayload),
      pcs ≠ "" →
      jsNumber (rawDistance.getD "50") = some maxD → ¬ maxD ≤ 0 →
      jsNumber (rawLimit.getD "20") = some lim → ¬ lim ≤ 0 →
      Api.loadPostcodeRecord pcStore (Api.normalisePostcode pcs) = some pcRecord →
      (Api.loadAllHikes hikeFiles).isEmpty = false →
      Api.GET jsNumber pcStore hikeFiles (some pcs) rawDistance rawLimit = .ok payload →
      ∀ p ∈ payload.results,
        p.2 = round2 (haversineDistanceKm pcRecord.latitude pcRecord.longitude
          ((p.1.start.bind (·.lat)).getD 0) ((p.1.start.bind (·.lon)).getD 0))) ∧
    (∀ (dir : Lib.HikeDir) (slug : String) (maxD : ℝ) (lim : ℕ)
      (center : Lib.Hike) (cst : Lib.HikeStart) (clat clon : ℝ)
      (r : List (Lib.Hike × ℝ)),
      Lib.getHikeBySlug dir slug = some center → center.start = some cst →
      cst.lat = some clat → cst.lon = some clon →
      Lib.getNearbyHikes dir slug maxD lim = .ok r →
      ∀ p ∈ r, p.2 = haversineKm clat clon
        ((p.1.start.bind (·.lat)).getD 0) ((p.1.start.bind (·.lon)).getD 0)) := by
  constructor
  · intro jsN pcS files pcs rawD rawL maxD lim pcRecord payload hpc hd hd0 hl hl0 hrec hne hok
    rw [GET_ok_characterisation jsN pcS files pcs rawD rawL maxD lim pcRecord hpc hd
      hd0 hl hl0 hrec (by rw [hne]; exact Bool.false_ne_true)] at hok
    injection hok with hp
    subst hp
    intro p hp
    exact (api_result_mem hp).2.1
  · intro dir slug maxD lim center cst clat clon r h1 h2 h3 h4 hok
    rw [getNearbyHikes_ok_characterisation dir slug maxD lim center cst clat clon
      h1 h2 h3 h4] at hok
    injection hok with hr
    subst hr
    intro p hp
    exact (lib_result_mem hp).2.1

/-- C6 counterexample: `getNearbyHikes` annotates the returned hike with
the raw distance `6371·π/2`, which differs from its 2-decimal rounding
`10007.54` — so the claim's "both call patterns round to 2 decimal
places" is false for the trail-anchored search. -/
theorem C6_distance_annotation_counterexample :
    Lib.getNearbyHikes dir90 "c" 30000 4 = .ok [(hikeX90, 6371 * Real.pi / 2)] ∧
    6371 * Real.pi / 2 ≠ round2 (6371 * Real.pi / 2) := by
  constructor
  · rw [getNearby_dir90_eval 30000 4, haversineKm_0_0_90_0, if_pos half_earth_le_30000]
    rfl
  · rw [round2_half_earth]
    exact ne_of_gt half_earth_gt_round

/-- C6 witness: the annotation theorem applied on the concrete store. -/
theorem C6_distance_annotation_witness :
    ∀ p ∈ ([(hikeX00, 0)] : List (Lib.Hike × ℝ)),
      p.2 = haversineKm 0 0
        ((p.1.start.bind (·.lat)).getD 0) ((p.1.start.bind (·.lon)).getD 0) := by
  have heval : Lib.getNearbyHikes dir00 "c" 30 4 = .ok [(hikeX00, 0)] := by
    rw [getNearby_dir00_eval 30 4, haversineKm_self, if_pos (by norm_num : (0:ℝ) ≤ 30)]
    rfl
  exact C6_distance_annotation.2 dir00 "c" 30 4 hikeC ⟨some 0, some 0, none, none⟩
    0 0 _ rfl rfl rfl rfl heval

/-! ## Claim C5: distinct error outcomes -/

/-- C5 (amended): the **route** keeps the four outcomes observably
distinct — bad parameters are 400s, an unresolvable postcode is a 404,
an empty corpus is a 500, and a non-empty corpus with no candidate in
radius is a 200 with an empty result list — and the four statuses are
pairwise different.  The **trail-anchored helper** does not: an
unresolvable reference slug yields the plain empty list, observably
identical to a zero-results search (see the counterexample). -/
theorem C5_error_outcomes :
    (∀ (jsN : String → Option ℝ) (pcS : String → JFile Api.PostcodeRecord)
      (files : List (JFile Api.Hike)) (rawD rawL : Option String),
      (Api.GET jsN pcS files none rawD rawL).status = 400) ∧
    (∀ (jsN : String → Option ℝ) (pcS : String → JFile Api.PostcodeRecord)
      (files : List (JFile Api.Hike)) (pcs : String) (rawD rawL : Option String),
      pcs ≠ "" →
      (jsN (rawD.getD "50") = none ∨ ∃ d, jsN (rawD.getD "50") = some d ∧ d ≤ 0) →
      (Api.GET jsN pcS files (some pcs) rawD rawL).status = 400) ∧
    (∀ (jsN : String → Option ℝ) (pcS : String → JFile Api.PostcodeRecord)
      (files : List (JFile Api.Hike)) (pcs : String) (rawD rawL : Option String)
      (maxD : ℝ),
      pcs ≠ "" → jsN (rawD.getD "50") = some maxD → ¬ maxD ≤ 0 →
      (jsN (rawL.getD "20") = none ∨ ∃ l, jsN (rawL.getD "20") = some l ∧ l ≤ 0) →
      (Api.GET jsN pcS files (some pcs) rawD rawL).status = 400) ∧
    (∀ (jsN : String → Option ℝ) (pcS : String → JFile Api.PostcodeRecord)
      (files : List (JFile Api.Hike)) (pcs : String) (rawD rawL : Option String)
      (maxD lim : ℝ),
      pcs ≠ "" → jsN (rawD.getD "50") = some maxD → ¬ maxD ≤ 0 →
      jsN (rawL.getD "20") = some lim → ¬ lim ≤ 0 →
      Api.loadPostcodeRecord pcS (Api.normalisePostcode pcs) = none →
      Api.GET jsN pcS files (some pcs) rawD rawL =
        .notFound ("Postcode not found or not in use: " ++ Api.normalisePostcode pcs) ∧
      (Api.GET jsN pcS files (some pcs) rawD rawL).status = 404) ∧
    (∀ (jsN : String → Option ℝ) (pcS : String → JFile Api.PostcodeRecord)
      (files : List (JFile Api.Hike)) (pcs : String) (rawD rawL : Option String)
      (maxD lim : ℝ) (pcRecord : Api.PostcodeRecord),
      pcs ≠ "" → jsN (rawD.getD "50") = some maxD → ¬ maxD ≤ 0 →
      jsN (rawL.getD "20") = some lim → ¬ lim ≤ 0 →
      Api.loadPostcodeRecord pcS (Api.normalisePostcode pcs) = some pcRecord →
      Api.loadAllHikes files = [] →
      Api.GET jsN pcS files (some pcs) rawD rawL =
        .serverError "No hikes data available yet" ∧
      (Api.GET jsN pcS files (some pcs) rawD rawL).status = 500) ∧
    (∀ (jsN : String → Option ℝ) (pcS : String → JFile Api.PostcodeRecord)
      (files : List (JFile Api.Hike)) (pcs : String) (rawD rawL : Option String)
      (maxD lim : ℝ) (pcRecord : Api.PostcodeRecord),
      pcs ≠ "" → jsN (rawD.getD "50") = some maxD → ¬ maxD ≤ 0 →
      jsN (rawL.getD "20") = some lim → ¬ lim ≤ 0 →
      Api.loadPostcodeRecord pcS (Api.normalisePostcode pcs) = some pcRecord →
      (Api.loadAllHikes files).isEmpty = false →
      Api.inRadius pcRecord files maxD = [] →
      ∃ payload, Api.GET jsN pcS files (some pcs) rawD rawL = .ok payload ∧
        payload.results = [] ∧ payload.resultCount = 0 ∧
        (Api.Response.ok payload).status = 200) ∧
    (∀ (e1 e2 e3 : String) (payload : Api.OkPayload),
      (Api.Response.badRequest e1).status ≠ (Api.Response.notFound e2).status ∧
      (Api.Response.badRequest e1).status ≠ (Api.Response.serverError e3).status ∧
      (Api.Response.badRequest e1).status ≠ (Api.Response.ok payload).status ∧
      (Api.Response.notFound e2).status ≠ (Api.Response.serverError e3).status ∧
      (Api.Response.notFound e2).status ≠ (Api.Response.ok payload).status ∧
      (Api.Response.serverError e3).status ≠ (Api.Response.ok payload).status) ∧
    (∀ (dir : Lib.HikeDir) (slug : String) (maxD : ℝ) (lim : ℕ),
      Lib.getHikeBySlug dir slug = none →
      Lib.getNearbyHikes dir slug maxD lim = .ok []) := by
  refine ⟨?_, ?_, ?_, ?_, ?_, ?_, ?_, ?_⟩
  · intro jsN pcS files rawD rawL
    rfl
  · intro jsN pcS files pcs rawD rawL hpc hbad
    unfold Api.GET
    rw [if_neg (by simpa using hpc)]
    rcases hbad with hnan | ⟨d, hd, hle⟩
    · rw [hnan]
      rfl
    · rw [hd]
      dsimp only
      rw [if_pos hle]
      rfl
  · intro jsN pcS files pcs rawD rawL maxD hpc hd hd0 hbad
    unfold Api.GET
    rw [if_neg (by simpa using hpc)]
    simp only [Option.getD_some]
    rw [hd]
    dsimp only
    rw [if_neg hd0]
    rcases hbad with hnan | ⟨l, hl, hle⟩
    · rw [hnan]
      rfl
    · rw [hl]
      dsimp only
      rw [if_pos hle]
      rfl
  · intro jsN pcS files pcs rawD rawL maxD lim hpc hd hd0 hl hl0 hrec
    have : Api.GET jsN pcS files (some pcs) rawD rawL =
        .notFound ("Postcode not found or not in use: " ++ Api.normalisePostcode pcs) := by
      unfold Api.GET
      rw [if_neg (by simpa using hpc)]
      simp only [Option.getD_some]
      rw [hd]
      dsimp only
      rw [if_neg hd0, hl]
      dsimp only
      rw [if_neg hl0, hrec]
    exact ⟨this, by rw [this]; rfl⟩
  · intro jsN pcS files pcs rawD rawL maxD lim pcRecord hpc hd hd0 hl hl0 hrec hemp
    have : Api.GET jsN pcS files (some pcs) rawD rawL =
        .serverError "No hikes data available yet" := by
      unfold Api.GET
      rw [if_neg (by simpa using hpc)]
      simp only [Option.getD_some]
      rw [hd]
      dsimp only
      rw [if_neg hd0, hl]
      dsimp only
      rw [if_neg hl0, hrec]
      dsimp only
      rw [if_pos (by rw [hemp]; rfl)]
    exact ⟨this, by rw [this]; rfl⟩
  · intro jsN pcS files pcs rawD rawL maxD lim pcRecord hpc hd hd0 hl hl0 hrec hne hrad
    refine ⟨_, GET_ok_characterisation jsN pcS files pcs rawD rawL maxD lim pcRecord
      hpc hd hd0 hl hl0 hrec (by rw [hne]; exact Bool.false_ne_true), ?_, ?_, rfl⟩
    · show (((Api.inRadius pcRecord files maxD).mergeSort Api.distLE).take
        (Int.toNat ⌊lim⌋)) = []
      rw [hrad, List.mergeSort_nil, List.take_nil]
    · show (((Api.inRadius pcRecord files maxD).mergeSort Api.distLE).take
        (Int.toNat ⌊lim⌋)).length = 0
      rw [hrad, List.mergeSort_nil, List.take_nil]
      rfl
  · intro e1 e2 e3 payload
    refine ⟨?_, ?_, ?_, ?_, ?_, ?_⟩ <;>
      · simp only [Api.Response.status]
        omega
  · intro dir slug maxD lim hnone
    unfold Lib.getNearbyHikes
    rw [hnone]

/-- C5 counterexample: for the trail-anchored search, "reference slug
not found" (empty store) and "zero results within radius" (a real corpus
whose only candidate lies ≈ 10008 km away, radius 30 km) produce the
**identical** observable outcome `.ok []` — the claimed pairwise
distinction does not hold for this call pattern. -/
theorem C5_error_outcomes_counterexample :
    Lib.getHikeBySlug ([] : Lib.HikeDir) "c" = none ∧
    Lib.getNearbyHikes ([] : Lib.HikeDir) "c" 30 4 = .ok [] ∧
    Lib.getHikeBySlug dir90 "c" = some hikeC ∧
    Lib.searchCandidates dir90 "c" = [hikeX90] ∧
    Lib.getNearbyHikes dir90 "c" 30 4 = .ok [] ∧
    Lib.getNearbyHikes ([] : Lib.HikeDir) "c" 30 4 =
      Lib.getNearbyHikes dir90 "c" 30 4 := by
  have h1 : Lib.getNearbyHikes ([] : Lib.HikeDir) "c" 30 4 = .ok [] := rfl
  have h2 : Lib.getNearbyHikes dir90 "c" 30 4 = .ok [] := by
    rw [getNearby_dir90_eval 30 4, haversineKm_0_0_90_0,
      if_neg quarter_turn_not_le_30]
  exact ⟨rfl, h1, rfl, rfl, h2, by rw [h1, h2]⟩

/-- C5 witness: the 404 outcome on a concrete store with no record for
the queried postcode. -/
theorem C5_error_outcomes_witness :
    Api.GET jsNum0 (fun _ => (.absent : JFile Api.PostcodeRecord)) hikeFiles90
      (some "AB1 2CD") (some "50") none =
      .notFound ("Postcode not found or not in use: " ++
        Api.normalisePostcode "AB1 2CD") ∧
    (Api.GET jsNum0 (fun _ => (.absent : JFile Api.PostcodeRecord)) hikeFiles90
      (some "AB1 2CD") (some "50") none).status = 404 :=
  C5_error_outcomes.2.2.2.1 jsNum0 (fun _ => .absent) hikeFiles90 "AB1 2CD"
    (some "50") none 50 20 (by decide) rfl (by norm_num) rfl (by norm_num) rfl

/-! ## Claim C9: preprocessing row-count invariant -/

/-- Each data row increments `totalRows` and exactly one of the three
outcome counters, preserving the invariant. -/
theorem processRow_invariant {R : Type} (jsNumber : String → Option R)
    (hm : List (String × ℕ)) (line : String) (st : Pre.PreState R)
    (hinv : st.totalRows = st.writtenByCode + st.skippedNoPostcode + st.skippedNoCoords) :
    (Pre.processRow jsNumber hm line st).totalRows =
      (Pre.processRow jsNumber hm line st).writtenByCode +
      (Pre.processRow jsNumber hm line st).skippedNoPostcode +
      (Pre.processRow jsNumber hm line st).skippedNoCoords := by
  unfold Pre.processRow
  dsimp only
  split
  · dsimp only
    omega
  · split_ifs with h1 h2
    all_goals first
      | omega
      | (dsimp only; omega)
      | (split <;> first | omega | (dsimp only; omega))

/-- The loop preserves the invariant. -/
theorem processLines_invariant {R : Type} (jsNumber : String → Option R)
    (hm : List (String × ℕ)) (lines : List String) (st : Pre.PreState R)
    (hinv : st.totalRows = st.writtenByCode + st.skippedNoPostcode + st.skippedNoCoords) :
    (Pre.processLines jsNumber hm lines st).totalRows =
      (Pre.processLines jsNumber hm lines st).writtenByCode +
      (Pre.processLines jsNumber hm lines st).skippedNoPostcode +
      (Pre.processLines jsNumber hm lines st).skippedNoCoords := by
  induction lines generalizing st with
  | nil => simpa using hinv
  | cons line rest ih =>
    unfold Pre.processLines
    split_ifs with h
    · exact ih st hinv
    · exact ih _ (processRow_invariant jsNumber hm line st hinv)

/-- C9: whenever the preprocessing pipeline runs to completion, the
counted data rows satisfy
`totalRows = written + skippedNoPostcode + skippedNoCoords`: every
counted row is written or attributed to exactly one skip reason. -/
theorem C9_row_count_invariant {R : Type} (jsNumber : String → Option R)
    (lines : List String) (st : Pre.PreState R)
    (h : Pre.preprocess jsNumber lines = some st) :
    st.totalRows = st.writtenByCode + st.skippedNoPostcode + st.skippedNoCoords := by
  unfold Pre.preprocess at h
  cases lines with
  | nil =>
    injection h with h'
    subst h'
    rfl
  | cons first rest =>
    dsimp only at h
    by_cases h1 : jsTrim first = ""
    · rw [if_pos h1] at h
      by_cases h2 : rest.all (fun l => jsTrim l = "") = true
      · rw [if_pos h2] at h
        injection h with h'
        subst h'
        rfl
      · rw [if_neg h2] at h
        cases h
    · rw [if_neg h1] at h
      injection h with h'
      subst h'
      exact processLines_invariant jsNumber _ rest {} rfl

/-- The record written for the single good row of the C9 witness CSV. -/
def recW : Pre.PostcodeRecord ℕ :=
  { postcode := "S66 7RR", area := "S", district := "S66", sector := "S66 7",
    latitude := 0, longitude := 0, in_use := true }

/-- The final state of the C9 witness run: header, one written row, one
row skipped for its empty postcode, one uncounted blank line. -/
def stW : Pre.PreState ℕ :=
  { totalRows := 2, writtenByCode := 1, skippedNoCoords := 0, skippedNoPostcode := 1,
    records := [("S66-7RR", recW)],
    districtItems := [("S66", { postcode := "S66 7RR", latitude := 0, longitude := 0 })] }

/-- C9 witness: the invariant on a concrete four-line CSV. -/
theorem C9_row_count_invariant_witness :
    stW.totalRows = stW.writtenByCode + stW.skippedNoPostcode + stW.skippedNoCoords :=
  C9_row_count_invariant (fun _ => some 0)
    ["Postcode,Latitude,Longitude", "S667RR,53,-1", ",,", ""] stW (by decide)
